import Mathlib

/-!
# Rube MCP adapter: a shallow embedding of `src/codex/tools/rube-mcp-adapter.js`

The adapter reads JSON-RPC requests from standard input, forwards each recognised
operation to an HTTP backend and writes one JSON-RPC envelope per handled message.

The development is organised as follows.

* ECMAScript values that `JSON.parse` can produce (`JsNum`, `JsVal`), with strings kept as
  sequences of UTF-16 code units, because `JSON.parse` can build unpaired surrogates and
  `encodeURIComponent` throws on them.
* The platform built-ins the adapter calls: `JSON.parse`, `JSON.stringify`,
  `encodeURIComponent`, `String.prototype.trim`, `ToString`, property access, `||`.
* The adapter itself, one definition per method of `RubeMCPAdapter`, as state passing over a
  `World` that records what was written to standard output and which backend requests were made.
* The theorems.

The HTTP round trip is a parameter (`Transport`): given the request that `makeRubeRequest`
builds it says whether the body arrives, the connection fails, or nothing ever comes back.
Each message is run to completion against that oracle; interleaving of several in-flight
requests is outside this model.
-/

namespace RubeMCP

/-! ## Values -/

/-- A JavaScript string: its UTF-16 code units. -/
abbrev JsString := List Nat

/-- An IEEE-754 double. A finite value is `(-1)^neg * num / 2^scale`; the representation is
canonical when `scale = 0` or `num` is odd, which is how `JsNum.ofDecimal` builds it. -/
inductive JsNum where
  | finite (neg : Bool) (num : Nat) (scale : Nat)
  | infinity (neg : Bool)
  | nan
  deriving DecidableEq

deriving instance DecidableEq for Except

/-- The thrown values the adapter can meet. -/
inductive JsError where
  | syntaxError
  | typeError
  | uriError
  | transportError
  deriving DecidableEq

/-- An ECMAScript value as far as JSON reaches. Objects keep their own properties in
enumeration order. -/
inductive JsVal where
  | undefined
  | null
  | bool (b : Bool)
  | num (n : JsNum)
  | str (s : JsString)
  | arr (items : List JsVal)
  | obj (props : List (JsString × JsVal))

/-- UTF-16 code units of one Unicode scalar value. -/
def utf16OfNat (c : Nat) : List Nat :=
  if c < 65536 then [c]
  else [55296 + (c - 65536) / 1024, 56320 + (c - 65536) % 1024]

/-- UTF-16 code units of a list of characters. -/
def utf16 : List Char → JsString
  | [] => []
  | c :: cs => utf16OfNat c.toNat ++ utf16 cs

/-- A string literal of the source as a JavaScript string. -/
def js (s : String) : JsString := utf16 s.data

/-- The number of an integer literal of the source. -/
def JsNum.ofInt (i : Int) : JsNum := .finite (decide (i < 0)) i.natAbs 0

/-! ## Numbers: decimal text to double and back -/

/-- Quotient of `n` by `d` rounded to the nearest integer, ties to the even one. -/
def roundDiv (n d : Nat) : Nat :=
  let q := n / d
  let r := n % d
  if 2 * r < d then q
  else if d < 2 * r then q + 1
  else if q % 2 = 0 then q else q + 1

/-- Halving until nothing is left: `floorLog2Aux fuel n` is `⌊log₂ n⌋` when `n ≤ fuel`. -/
def floorLog2Aux : Nat → Nat → Nat
  | 0, _ => 0
  | fuel + 1, n => if n < 2 then 0 else floorLog2Aux fuel (n / 2) + 1

/-- The position of the leading bit, `⌊log₂ n⌋` (and `0` for `0`). -/
def floorLog2 (n : Nat) : Nat := floorLog2Aux n n

/-- Cancel common factors of two of `num / 2^scale`. -/
def canonDyadic : Nat → Nat → Nat × Nat
  | n, 0 => (n, 0)
  | n, s + 1 => if n % 2 = 0 then canonDyadic (n / 2) s else (n, s + 1)

/-- The double nearest to `n / d` (round to nearest, ties to even), for `d > 0`. -/
def JsNum.ofRatio (neg : Bool) (n d : Nat) : JsNum :=
  if n = 0 then .finite neg 0 0
  else
    let l0 : Int := (floorLog2 n : Int) - (floorLog2 d : Int)
    let above : Bool :=
      if 0 ≤ l0 then decide (d * 2 ^ l0.toNat ≤ n) else decide (d ≤ n * 2 ^ (-l0).toNat)
    let l : Int := if above then l0 else l0 - 1
    let e : Int := max (l - 52) (-1074)
    let m : Nat :=
      if 0 ≤ e then roundDiv n (d * 2 ^ e.toNat) else roundDiv (n * 2 ^ (-e).toNat) d
    if 971 < e ∨ (e = 971 ∧ m = 2 ^ 53) then .infinity neg
    else if 0 ≤ e then .finite neg (m * 2 ^ e.toNat) 0
    else
      let c := canonDyadic m (-e).toNat
      .finite neg c.1 c.2

/-- The Number value of the decimal `c * 10^x`, as `JSON.parse` computes it for a number
token. The two guards only avoid building astronomically large powers: the first is taken
when `c * 10^x ≥ 10^401`, the second when `c * 10^x < 2^(-1075)`. -/
def JsNum.ofDecimal (neg : Bool) (c : Nat) (x : Int) : JsNum :=
  if c = 0 then .finite neg 0 0
  else if 400 < x then .infinity neg
  else if x < 0 ∧ floorLog2 c + 1076 ≤ 3 * (-x).toNat then .finite neg 0 0
  else if 0 ≤ x then JsNum.ofRatio neg (c * 10 ^ x.toNat) 1
  else JsNum.ofRatio neg c (10 ^ (-x).toNat)

/-- Whether `num / 2^scale < 10^n`. -/
def ltPow10 (num scale : Nat) (n : Int) : Bool :=
  if 0 ≤ n then decide (num < 10 ^ n.toNat * 2 ^ scale)
  else decide (num * 10 ^ (-n).toNat < 2 ^ scale)

/-- The `n` of `Number::toString`: `10^(n-1) ≤ num / 2^scale < 10^n`, for `num > 0`. -/
def decimalExponent (num scale : Nat) : Int :=
  let t : Int := (floorLog2 num : Int) - (scale : Int)
  let n0 : Int := t * 30103 / 100000
  if ltPow10 num scale (n0 - 1) then n0 - 1
  else if ltPow10 num scale n0 then n0
  else if ltPow10 num scale (n0 + 1) then n0 + 1
  else if ltPow10 num scale (n0 + 2) then n0 + 2
  else n0 + 3

/-- Shortest digits search of `Number::toString`: tries `k = 18 - fuel, ..., 17` digits and
returns `(s, n)` with `s * 10^(n-k)` reading back as the same double. -/
def shortestDigits (num scale : Nat) (n : Int) : Nat → Nat → Nat × Int
  | 0, k => (num, n + (k : Int) - 1)
  | fuel + 1, k =>
    let p : Int := n - (k : Int)
    let lo : Nat :=
      if 0 ≤ p then num / (2 ^ scale * 10 ^ p.toNat) else num * 10 ^ (-p).toNat / 2 ^ scale
    let hi : Nat := lo + 1
    let x : JsNum := .finite false num scale
    let okLo : Bool := decide (JsNum.ofDecimal false lo p = x)
    let okHi : Bool := decide (JsNum.ofDecimal false hi p = x)
    let hiOut : Nat × Int := if hi = 10 ^ k then (10 ^ (k - 1), n + 1) else (hi, n)
    -- twice the value against the midpoint of the two candidates
    let nearLo : Bool :=
      if 0 ≤ p then decide (2 * num < (2 * lo + 1) * 10 ^ p.toNat * 2 ^ scale)
      else decide (2 * num * 10 ^ (-p).toNat < (2 * lo + 1) * 2 ^ scale)
    let nearHi : Bool :=
      if 0 ≤ p then decide ((2 * lo + 1) * 10 ^ p.toNat * 2 ^ scale < 2 * num)
      else decide ((2 * lo + 1) * 2 ^ scale < 2 * num * 10 ^ (-p).toNat)
    if okLo && okHi then
      if nearLo then (lo, n) else if nearHi then hiOut else if lo % 2 = 0 then (lo, n) else hiOut
    else if okLo then (lo, n)
    else if okHi then hiOut
    else shortestDigits num scale n fuel (k + 1)

/-- The text of `Number::toString` for a positive finite value with digits `ds` and decimal
exponent `n`. -/
def formatDigits (ds : List Char) (n : Int) : List Char :=
  let k : Int := ds.length
  if k ≤ n ∧ n ≤ 21 then ds ++ List.replicate (n - k).toNat '0'
  else if 0 < n ∧ n ≤ 21 then ds.take n.toNat ++ '.' :: ds.drop n.toNat
  else if -6 < n ∧ n ≤ 0 then '0' :: '.' :: (List.replicate (-n).toNat '0' ++ ds)
  else
    let e : Int := n - 1
    let sign : Char := if 0 ≤ e then '+' else '-'
    let ex : List Char := Nat.toDigits 10 e.natAbs
    match ds with
    | [] => []
    | [d] => d :: 'e' :: sign :: ex
    | d :: rest => d :: '.' :: (rest ++ 'e' :: sign :: ex)

/-- The text of `Number::toString` (radix 10). -/
def JsNum.toText : JsNum → List Char
  | .nan => "NaN".data
  | .infinity false => "Infinity".data
  | .infinity true => "-Infinity".data
  | .finite neg num scale =>
    if num = 0 then ['0']
    else
      let r := shortestDigits num scale (decimalExponent num scale) 17 1
      let body := formatDigits (Nat.toDigits 10 r.1) r.2
      if neg then '-' :: body else body


/-! ## Built-ins on values -/

/-- Own property lookup in a property list. -/
def lookupProp (key : JsString) : List (JsString × JsVal) → Option JsVal
  | [] => none
  | (k, v) :: rest => if k = key then some v else lookupProp key rest

/-- Whether a property list holds the key. -/
def hasProp (key : JsString) (props : List (JsString × JsVal)) : Bool :=
  (lookupProp key props).isSome

/-- Member access `v.key` for the property names the adapter reads (`method`, `id`, `params`,
`name`, `arguments`, `uri`, `content`, `isError`, `contents`). None of them is defined on
`Object.prototype`, `Array.prototype`, `String.prototype`, `Number.prototype` or
`Boolean.prototype`, so only an own property of an object can answer; access on `null` or
`undefined` throws a `TypeError`. -/
def getProp (v : JsVal) (key : JsString) : Except JsError JsVal :=
  match v with
  | .undefined => .error .typeError
  | .null => .error .typeError
  | .obj props => .ok ((lookupProp key props).getD .undefined)
  | _ => .ok .undefined

/-- Reading a field of a value known to be an object; `undefined` when there is none. -/
def JsVal.field (v : JsVal) (key : JsString) : JsVal :=
  match v with
  | .obj props => (lookupProp key props).getD .undefined
  | _ => .undefined

/-- Whether an object has the own property. -/
def JsVal.hasField (v : JsVal) (key : JsString) : Bool :=
  match v with
  | .obj props => hasProp key props
  | _ => false

/-- Whether a value is an array. -/
def JsVal.isArray : JsVal → Bool
  | .arr _ => true
  | _ => false

/-- Whether a value is an object in the JSON sense (not an array, not `null`). -/
def JsVal.isObject : JsVal → Bool
  | .obj _ => true
  | _ => false

/-- The abstract operation `ToBoolean`. -/
def truthy : JsVal → Bool
  | .undefined => false
  | .null => false
  | .bool b => b
  | .num (.finite _ num _) => decide (num ≠ 0)
  | .num (.infinity _) => true
  | .num .nan => false
  | .str s => !s.isEmpty
  | .arr _ => true
  | .obj _ => true

/-- The operator `a || b`. -/
def jsOr (a b : JsVal) : JsVal := if truthy a then a else b

/-- Whether a code unit is a leading surrogate. -/
def isHighSurrogate (u : Nat) : Bool := decide (55296 ≤ u) && decide (u ≤ 56319)

/-- Whether a code unit is a trailing surrogate. -/
def isLowSurrogate (u : Nat) : Bool := decide (56320 ≤ u) && decide (u ≤ 57343)

/-- Scan for unpaired surrogates; `pending` says that the previous unit was a leading
surrogate still waiting for its trailing one. -/
def wellFormedFrom : Bool → JsString → Bool
  | pending, [] => !pending
  | false, u :: rest =>
    if isHighSurrogate u then wellFormedFrom true rest
    else if isLowSurrogate u then false
    else decide (u < 65536) && wellFormedFrom false rest
  | true, u :: rest => isLowSurrogate u && wellFormedFrom false rest

/-- A string without unpaired surrogates whose units all fit sixteen bits
(`String.prototype.isWellFormed`). -/
def isWellFormed (s : JsString) : Bool := wellFormedFrom false s

mutual
/-- The abstract operation `ToString` on the values of this model. An array joins its
elements with commas; a plain object answers `[object Object]` unless an own (hence not
callable) `toString` property shadows the inherited method, in which case
`OrdinaryToPrimitive` ends in a `TypeError`. -/
def toStringJs : JsVal → Except JsError JsString
  | .undefined => .ok (js "undefined")
  | .null => .ok (js "null")
  | .bool true => .ok (js "true")
  | .bool false => .ok (js "false")
  | .num n => .ok (utf16 n.toText)
  | .str s => .ok s
  | .arr items => joinJs items
  | .obj props => if hasProp (js "toString") props then .error .typeError
                  else .ok (js "[object Object]")
termination_by structural v => v
/-- The result of `Array.prototype.join` with the default separator: `undefined` and `null`
elements contribute the empty string. -/
def joinJs : List JsVal → Except JsError JsString
  | [] => .ok []
  | v :: rest =>
    let head : Except JsError JsString :=
      match v with
      | .undefined => .ok []
      | .null => .ok []
      | .bool b => toStringJs (.bool b)
      | .num n => toStringJs (.num n)
      | .str s => toStringJs (.str s)
      | .arr items => toStringJs (.arr items)
      | .obj props => toStringJs (.obj props)
    match head with
    | .error e => .error e
    | .ok s =>
      match rest with
      | [] => .ok s
      | _ :: _ =>
        match joinJs rest with
        | .error e => .error e
        | .ok t => .ok (s ++ 44 :: t)
termination_by structural l => l
end

/-- The characters `encodeURIComponent` leaves alone: ASCII letters, digits and
`- _ . ! ~ * ' ( )`. -/
def isUriUnreserved (u : Nat) : Bool :=
  (decide (65 ≤ u) && decide (u ≤ 90)) || (decide (97 ≤ u) && decide (u ≤ 122)) ||
  (decide (48 ≤ u) && decide (u ≤ 57)) ||
  u == 45 || u == 95 || u == 46 || u == 33 || u == 126 || u == 42 || u == 39 ||
  u == 40 || u == 41

/-- An upper-case hexadecimal digit. -/
def hexDigitUpper (n : Nat) : Char :=
  if n < 10 then Char.ofNat (48 + n) else Char.ofNat (55 + n)

/-- One octet as `%XX`. -/
def percentOctet (b : Nat) : List Char :=
  ['%', hexDigitUpper (b / 16 % 16), hexDigitUpper (b % 16)]

/-- The UTF-8 octets of a code point. -/
def utf8Octets (cp : Nat) : List Nat :=
  if cp < 128 then [cp]
  else if cp < 2048 then [192 + cp / 64, 128 + cp % 64]
  else if cp < 65536 then [224 + cp / 4096, 128 + cp / 64 % 64, 128 + cp % 64]
  else [240 + cp / 262144 % 8, 128 + cp / 4096 % 64, 128 + cp / 64 % 64, 128 + cp % 64]

/-- A code point percent-encoded octet by octet. -/
def percentCodePoint (cp : Nat) : List Char :=
  (utf8Octets cp).flatMap percentOctet

/-- The loop of the abstract operation `Encode` with the unreserved set of
`encodeURIComponent`. `pending` holds a leading surrogate whose trailing surrogate must come
next; a surrogate without its partner throws a `URIError`. -/
def encodeFrom : Option Nat → JsString → Except JsError (List Char)
  | none, [] => .ok []
  | some _, [] => .error .uriError
  | none, u :: rest =>
    if isUriUnreserved u then
      match encodeFrom none rest with
      | .ok out => .ok (Char.ofNat u :: out)
      | .error e => .error e
    else if isHighSurrogate u then encodeFrom (some u) rest
    else if isLowSurrogate u then .error .uriError
    else
      match encodeFrom none rest with
      | .ok out => .ok (percentCodePoint u ++ out)
      | .error e => .error e
  | some hi, lo :: rest =>
    if isLowSurrogate lo then
      match encodeFrom none rest with
      | .ok out => .ok (percentCodePoint ((hi - 55296) * 1024 + (lo - 56320) + 65536) ++ out)
      | .error e => .error e
    else .error .uriError

/-- The abstract operation `Encode` for `encodeURIComponent`. -/
def encodeUnits (s : JsString) : Except JsError (List Char) := encodeFrom none s

/-- The global function `encodeURIComponent`: `ToString` of the argument, then `Encode`. -/
def encodeURIComponent (v : JsVal) : Except JsError String :=
  match toStringJs v with
  | .error e => .error e
  | .ok s =>
    match encodeUnits s with
    | .error e => .error e
    | .ok out => .ok (String.mk out)

/-- White space and line terminators of ECMAScript, the characters `trim` removes. -/
def isJsWhitespace (c : Char) : Bool :=
  let n := c.toNat
  n == 9 || n == 10 || n == 11 || n == 12 || n == 13 || n == 32 || n == 160 || n == 5760 ||
  (decide (8192 ≤ n) && decide (n ≤ 8202)) || n == 8232 || n == 8233 || n == 8239 ||
  n == 8287 || n == 12288 || n == 65279

/-- The characters of `String.prototype.trim` applied to a text. -/
def trimChars (cs : List Char) : List Char :=
  ((cs.dropWhile isJsWhitespace).reverse.dropWhile isJsWhitespace).reverse

/-- The method `String.prototype.trim`. -/
def jsTrim (s : String) : String := String.mk (trimChars s.data)


/-! ## `JSON.parse`

The parser reads the text one character at a time. Its state is the stack of the arrays and
objects that are still open together with what is expected next. It follows the JSON grammar
of ECMA-404 as `JSON.parse` does; limits of an engine on nesting depth or text length are not
part of it. -/

/-- A container whose closing bracket has not been read: an array with the elements read so
far, or an object with the properties read so far and the key whose value is awaited. -/
inductive Frame where
  | arr (items : List JsVal)
  | obj (props : List (JsString × JsVal)) (key : JsString)

/-- Where a number token stands. -/
inductive NumPhase where
  | minus
  | zero
  | int
  | dot
  | frac
  | expMark
  | expSign
  | exp
  deriving DecidableEq

/-- A number token being read: sign, the digits of integer and fraction part as one natural
number, the count of fraction digits, and the exponent. -/
structure NumAcc where
  phase : NumPhase
  neg : Bool
  digits : Nat
  fracLen : Nat
  expNeg : Bool
  exp : Nat

/-- What the parser expects next. -/
inductive Mode where
  | value
  | valueOrClose
  | keyOrClose
  | key
  | colon
  | after
  | done (v : JsVal)
  | string (isKey : Bool) (acc : JsString)
  | escape (isKey : Bool) (acc : JsString)
  | hex (isKey : Bool) (acc : JsString) (seen : List Nat)
  | literal (rest : List Char) (v : JsVal)
  | number (n : NumAcc)
  | failed

/-- The state of the parser. -/
structure PState where
  stack : List Frame
  mode : Mode

/-- The four white space characters of the JSON grammar. -/
def isJsonWhitespace (c : Char) : Bool :=
  c.toNat == 9 || c.toNat == 10 || c.toNat == 13 || c.toNat == 32

/-- Whether a key is an array index: the canonical decimal text of an integer below
`2^32 - 1`. Such keys are enumerated first, in ascending order. -/
def arrayIndex? (key : JsString) : Option Nat :=
  match key with
  | [] => none
  | [48] => some 0
  | d :: rest =>
    if 49 ≤ d ∧ d ≤ 57 ∧ rest.all (fun u => decide (48 ≤ u) && decide (u ≤ 57)) then
      let n := (d :: rest).foldl (fun acc u => acc * 10 + (u - 48)) 0
      if n < 4294967295 then some n else none
    else none

/-- Insert a new array-index key at its place among the leading array-index keys. -/
def insertIndexKey (i : Nat) (key : JsString) (v : JsVal) :
    List (JsString × JsVal) → List (JsString × JsVal)
  | [] => [(key, v)]
  | (k, w) :: rest =>
    match arrayIndex? k with
    | some j => if j < i then (k, w) :: insertIndexKey i key v rest else (key, v) :: (k, w) :: rest
    | none => (key, v) :: (k, w) :: rest

/-- Overwrite the value of a key that is present. -/
def replaceProp (key : JsString) (v : JsVal) : List (JsString × JsVal) → List (JsString × JsVal)
  | [] => []
  | (k, w) :: rest => if k = key then (k, v) :: rest else (k, w) :: replaceProp key v rest

/-- The abstract operation `CreateDataProperty` on an ordinary object, in terms of the
enumeration order of its own keys: a key that is present keeps its place, a new array index
goes among the indices, any other new key goes last. -/
def objSet (props : List (JsString × JsVal)) (key : JsString) (v : JsVal) :
    List (JsString × JsVal) :=
  if hasProp key props then replaceProp key v props
  else
    match arrayIndex? key with
    | some i => insertIndexKey i key v props
    | none => props ++ [(key, v)]

/-- A value is complete: it becomes the document, the next element of the open array, or
the value of the pending key of the open object. -/
def complete (stack : List Frame) (v : JsVal) : PState :=
  match stack with
  | [] => ⟨[], .done v⟩
  | .arr items :: rest => ⟨.arr (items ++ [v]) :: rest, .after⟩
  | .obj props key :: rest => ⟨.obj (objSet props key v) [] :: rest, .after⟩

/-- The value of a hexadecimal digit. -/
def hexValue (c : Char) : Option Nat :=
  let n := c.toNat
  if 48 ≤ n ∧ n ≤ 57 then some (n - 48)
  else if 65 ≤ n ∧ n ≤ 70 then some (n - 55)
  else if 97 ≤ n ∧ n ≤ 102 then some (n - 87)
  else none

/-- The value of a decimal digit. -/
def digitValue (c : Char) : Option Nat :=
  if 48 ≤ c.toNat ∧ c.toNat ≤ 57 then some (c.toNat - 48) else none

/-- Whether a number token may end where it stands. -/
def NumPhase.isFinal : NumPhase → Bool
  | .zero => true
  | .int => true
  | .frac => true
  | .exp => true
  | _ => false

/-- The Number value of a finished number token. -/
def NumAcc.value (n : NumAcc) : JsNum :=
  JsNum.ofDecimal n.neg n.digits
    ((if n.expNeg then -(n.exp : Int) else (n.exp : Int)) - (n.fracLen : Int))

/-- One more character of a number token; `none` when the character does not continue it. -/
def NumAcc.feed (n : NumAcc) (c : Char) : Option NumAcc :=
  match n.phase, digitValue c with
  | .minus, some d => some { n with phase := if d = 0 then .zero else .int, digits := d }
  | .int, some d => some { n with digits := n.digits * 10 + d }
  | .dot, some d => some { n with phase := .frac, digits := n.digits * 10 + d, fracLen := n.fracLen + 1 }
  | .frac, some d => some { n with digits := n.digits * 10 + d, fracLen := n.fracLen + 1 }
  | .expMark, some d => some { n with phase := .exp, exp := d }
  | .expSign, some d => some { n with phase := .exp, exp := d }
  | .exp, some d => some { n with exp := n.exp * 10 + d }
  | .zero, some _ => none
  | .zero, none => if c = '.' then some { n with phase := .dot }
                   else if c = 'e' ∨ c = 'E' then some { n with phase := .expMark } else none
  | .int, none => if c = '.' then some { n with phase := .dot }
                  else if c = 'e' ∨ c = 'E' then some { n with phase := .expMark } else none
  | .frac, none => if c = 'e' ∨ c = 'E' then some { n with phase := .expMark } else none
  | .expMark, none => if c = '+' then some { n with phase := .expSign }
                      else if c = '-' then some { n with phase := .expSign, expNeg := true }
                      else none
  | _, none => none

/-- The character after a complete value: white space, a comma or a closing bracket. -/
def stepAfter (stack : List Frame) (c : Char) : PState :=
  if isJsonWhitespace c then ⟨stack, .after⟩
  else
    match stack with
    | .arr items :: rest =>
      if c = ',' then ⟨.arr items :: rest, .value⟩
      else if c = ']' then complete rest (.arr items)
      else ⟨stack, .failed⟩
    | .obj props key :: rest =>
      if c = ',' then ⟨.obj props key :: rest, .key⟩
      else if c = '}' then complete rest (.obj props)
      else ⟨stack, .failed⟩
    | [] => ⟨stack, .failed⟩

/-- The character after the whole document: only white space may follow. -/
def stepDone (v : JsVal) (c : Char) : PState :=
  if isJsonWhitespace c then ⟨[], .done v⟩ else ⟨[], .failed⟩

/-- The first character of a value. -/
def stepValue (stack : List Frame) (c : Char) : PState :=
  if c = '{' then ⟨.obj [] [] :: stack, .keyOrClose⟩
  else if c = '[' then ⟨.arr [] :: stack, .valueOrClose⟩
  else if c = '"' then ⟨stack, .string false []⟩
  else if c = 't' then ⟨stack, .literal ['r', 'u', 'e'] (.bool true)⟩
  else if c = 'f' then ⟨stack, .literal ['a', 'l', 's', 'e'] (.bool false)⟩
  else if c = 'n' then ⟨stack, .literal ['u', 'l', 'l'] .null⟩
  else if c = '-' then ⟨stack, .number ⟨.minus, true, 0, 0, false, 0⟩⟩
  else
    match digitValue c with
    | some d => ⟨stack, .number ⟨if d = 0 then .zero else .int, false, d, 0, false, 0⟩⟩
    | none => ⟨stack, .failed⟩

/-- The closing quote of a string: a key is stored in the open object, any other string is
a complete value. -/
def closeString (stack : List Frame) (isKey : Bool) (acc : JsString) : PState :=
  if isKey then
    match stack with
    | .obj props _ :: rest => ⟨.obj props acc :: rest, .colon⟩
    | _ => ⟨stack, .failed⟩
  else complete stack (.str acc)

/-- The code unit a one-letter escape stands for. -/
def escapeUnit (c : Char) : Option Nat :=
  if c = '"' then some 34
  else if c = '\\' then some 92
  else if c = '/' then some 47
  else if c = 'b' then some 8
  else if c = 'f' then some 12
  else if c = 'n' then some 10
  else if c = 'r' then some 13
  else if c = 't' then some 9
  else none

/-- One character of input. -/
def step (st : PState) (c : Char) : PState :=
  match st.mode with
  | .failed => st
  | .done v => stepDone v c
  | .after => stepAfter st.stack c
  | .value => if isJsonWhitespace c then st else stepValue st.stack c
  | .valueOrClose =>
    if isJsonWhitespace c then st
    else if c = ']' then
      match st.stack with
      | .arr items :: rest => complete rest (.arr items)
      | _ => ⟨st.stack, .failed⟩
    else stepValue st.stack c
  | .keyOrClose =>
    if isJsonWhitespace c then st
    else if c = '}' then
      match st.stack with
      | .obj props _ :: rest => complete rest (.obj props)
      | _ => ⟨st.stack, .failed⟩
    else if c = '"' then ⟨st.stack, .string true []⟩
    else ⟨st.stack, .failed⟩
  | .key =>
    if isJsonWhitespace c then st
    else if c = '"' then ⟨st.stack, .string true []⟩
    else ⟨st.stack, .failed⟩
  | .colon =>
    if isJsonWhitespace c then st
    else if c = ':' then ⟨st.stack, .value⟩
    else ⟨st.stack, .failed⟩
  | .string isKey acc =>
    if c = '"' then closeString st.stack isKey acc
    else if c = '\\' then ⟨st.stack, .escape isKey acc⟩
    else if c.toNat < 32 then ⟨st.stack, .failed⟩
    else ⟨st.stack, .string isKey (acc ++ utf16OfNat c.toNat)⟩
  | .escape isKey acc =>
    if c = 'u' then ⟨st.stack, .hex isKey acc []⟩
    else
      match escapeUnit c with
      | some u => ⟨st.stack, .string isKey (acc ++ [u])⟩
      | none => ⟨st.stack, .failed⟩
  | .hex isKey acc seen =>
    match hexValue c with
    | none => ⟨st.stack, .failed⟩
    | some d =>
      match seen with
      | [a, b, e] => ⟨st.stack, .string isKey (acc ++ [((a * 16 + b) * 16 + e) * 16 + d])⟩
      | _ => ⟨st.stack, .hex isKey acc (seen ++ [d])⟩
  | .literal rest v =>
    match rest with
    | [] => ⟨st.stack, .failed⟩
    | [x] => if c = x then complete st.stack v else ⟨st.stack, .failed⟩
    | x :: more => if c = x then ⟨st.stack, .literal more v⟩ else ⟨st.stack, .failed⟩
  | .number n =>
    match n.feed c with
    | some n2 => ⟨st.stack, .number n2⟩
    | none =>
      if n.phase.isFinal then
        match complete st.stack (.num n.value) with
        | ⟨_, .done v⟩ => stepDone v c
        | ⟨stack2, _⟩ => stepAfter stack2 c
      else ⟨st.stack, .failed⟩

/-- The end of the text: the document must be complete; a number token that reaches the end
of the text is finished there. -/
def finish (st : PState) : Except JsError JsVal :=
  match st.mode, st.stack with
  | .done v, _ => .ok v
  | .number n, [] => if n.phase.isFinal then .ok (.num n.value) else .error .syntaxError
  | _, _ => .error .syntaxError

/-- The parser run over a character list from a given state. -/
def runParser (st : PState) (cs : List Char) : PState := cs.foldl step st

/-- The function `JSON.parse` on a list of characters (no reviver). -/
def parseChars (cs : List Char) : Except JsError JsVal :=
  finish (runParser ⟨[], .value⟩ cs)

/-- The function `JSON.parse` (no reviver): the parsed value, or a thrown `SyntaxError`. -/
def jsonParse (text : String) : Except JsError JsVal := parseChars text.data


/-! ## `JSON.stringify` -/

/-- A lower-case hexadecimal digit. -/
def hexDigitLower (n : Nat) : Char :=
  if n < 10 then Char.ofNat (48 + n) else Char.ofNat (87 + n)

/-- The escape `\uXXXX` of a code unit. -/
def unicodeEscape (u : Nat) : List Char :=
  ['\\', 'u', hexDigitLower (u / 4096 % 16), hexDigitLower (u / 256 % 16),
    hexDigitLower (u / 16 % 16), hexDigitLower (u % 16)]

/-- The body of `QuoteJSONString`: short escapes for the usual control characters, `\uXXXX`
for the other control characters and for unpaired surrogates, everything else as it is. -/
def quoteUnits : JsString → List Char
  | [] => []
  | u :: rest =>
    if u = 8 then '\\' :: 'b' :: quoteUnits rest
    else if u = 9 then '\\' :: 't' :: quoteUnits rest
    else if u = 10 then '\\' :: 'n' :: quoteUnits rest
    else if u = 12 then '\\' :: 'f' :: quoteUnits rest
    else if u = 13 then '\\' :: 'r' :: quoteUnits rest
    else if u = 34 then '\\' :: '"' :: quoteUnits rest
    else if u = 92 then '\\' :: '\\' :: quoteUnits rest
    else if u < 32 then unicodeEscape u ++ quoteUnits rest
    else if isHighSurrogate u then
      match rest with
      | [] => unicodeEscape u
      | lo :: rest2 =>
        if isLowSurrogate lo then
          Char.ofNat ((u - 55296) * 1024 + (lo - 56320) + 65536) :: quoteUnits rest2
        else unicodeEscape u ++ quoteUnits (lo :: rest2)
    else if isLowSurrogate u then unicodeEscape u ++ quoteUnits rest
    else Char.ofNat u :: quoteUnits rest

/-- The abstract operation `QuoteJSONString`. -/
def quoteJson (s : JsString) : List Char := '"' :: (quoteUnits s ++ ['"'])

mutual
/-- The abstract operation `SerializeJSONProperty` without replacer and indentation; `none`
stands for the result `undefined`. -/
def stringifyVal : JsVal → Option (List Char)
  | .undefined => none
  | .null => some "null".data
  | .bool true => some "true".data
  | .bool false => some "false".data
  | .num (.finite neg num scale) => some (JsNum.finite neg num scale).toText
  | .num _ => some "null".data
  | .str s => some (quoteJson s)
  | .arr items => some ('[' :: (stringifyItems items ++ [']']))
  | .obj props => some ('{' :: (stringifyProps props true ++ ['}']))
termination_by structural v => v
/-- The elements of an array separated by commas; an `undefined` element is written `null`. -/
def stringifyItems : List JsVal → List Char
  | [] => []
  | v :: rest =>
    (stringifyVal v).getD "null".data ++
      (match rest with
       | [] => []
       | _ :: _ => ',' :: stringifyItems rest)
termination_by structural l => l
/-- The properties of an object separated by commas; a property whose value is `undefined`
is left out. The flag says whether nothing has been written yet. -/
def stringifyProps : List (JsString × JsVal) → Bool → List Char
  | [], _ => []
  | (k, v) :: rest, first =>
    match stringifyVal v with
    | none => stringifyProps rest first
    | some t =>
      (if first then [] else [',']) ++ quoteJson k ++ ':' :: (t ++ stringifyProps rest false)
termination_by structural l => l
end

/-- The function `JSON.stringify` (no replacer, no indentation); `none` is `undefined`. -/
def jsonStringify (v : JsVal) : Option String := (stringifyVal v).map String.mk

/-! ## The adapter -/

/-- The fields of a `RubeMCPAdapter`, read from the environment by the constructor:
`RUBE_ENDPOINT` with its default, and `RUBE_AUTH_TOKEN`, which may be missing. -/
structure RubeMCPAdapter where
  rubeEndpoint : String
  authToken : Option String

/-- The field initialisers of the constructor: `process.env.RUBE_ENDPOINT ||
'https://api.rube.app'` (an unset or empty variable gives the default) and
`process.env.RUBE_AUTH_TOKEN`. -/
def RubeMCPAdapter.create (envEndpoint envAuthToken : Option String) : RubeMCPAdapter :=
  { rubeEndpoint :=
      match envEndpoint with
      | some e => if e.isEmpty then "https://api.rube.app" else e
      | none => "https://api.rube.app"
    authToken := envAuthToken }

/-- The arguments of one call of `makeRubeRequest`. -/
structure RubeCall where
  path : String
  method : String
  body : JsVal

/-- The HTTP request `makeRubeRequest` hands to the client: the path and the base it is
resolved against, the verb, the two headers, and the payload when one is written. -/
structure HttpRequest where
  base : String
  path : String
  method : String
  contentType : String
  authorization : String
  payload : Option String
  deriving DecidableEq

/-- What the HTTP client does with a request: the response ends with the given body text
(whatever the status code); the request emits `error` or building it throws inside the
promise executor (a malformed endpoint or header), both of which reject the promise; or
nothing ever happens. -/
inductive Reply where
  | body (data : String)
  | failure
  | silence
  deriving DecidableEq

/-- The network as the adapter sees it. -/
abbrev Transport := HttpRequest → Reply

/-- The state of the promise `makeRubeRequest` returns. -/
inductive Settled where
  | resolved (v : JsVal)
  | rejected (e : JsError)
  | pending

/-- How a call of an asynchronous handler ends: it returns, it throws, or it stays
suspended at an `await` for ever. -/
inductive Completion where
  | normal
  | throw (e : JsError)
  | pending
  deriving DecidableEq

/-- What the process has done so far: the units written to standard output, the messages
handed to `sendToCodex` (the values behind those units, in the same order), the calls of
`makeRubeRequest`, and the number of `console.error` reports. -/
structure World where
  stdout : List String
  sent : List JsVal
  requests : List RubeCall
  diagnostics : Nat

/-- Nothing has happened yet. -/
def World.initial : World := ⟨[], [], [], 0⟩

/-- The request `makeRubeRequest` builds from its arguments: `if (body)` decides whether a
payload is written. -/
def RubeMCPAdapter.httpRequest (a : RubeMCPAdapter) (call : RubeCall) : HttpRequest :=
  { base := a.rubeEndpoint
    path := call.path
    method := call.method
    contentType := "application/json"
    authorization := "Bearer " ++ a.authToken.getD "undefined"
    payload := if truthy call.body then some ((jsonStringify call.body).getD "undefined") else none }

/-- The method `makeRubeRequest`: the promise resolves with the parsed body, rejects when the
request fails or the body is not JSON, and stays pending when the response never ends. -/
def RubeMCPAdapter.makeRubeRequest (a : RubeMCPAdapter) (net : Transport)
    (path method : String) (body : JsVal) (w : World) : Settled × World :=
  let call : RubeCall := ⟨path, method, body⟩
  let w1 : World := { w with requests := w.requests ++ [call] }
  match net (a.httpRequest call) with
  | .body data =>
    match jsonParse data with
    | .ok result => (.resolved result, w1)
    | .error e => (.rejected e, w1)
  | .failure => (.rejected .transportError, w1)
  | .silence => (.pending, w1)

/-- The text `sendToCodex` writes for a message. -/
def outputLine (message : JsVal) : String :=
  (jsonStringify message).getD "undefined" ++ "\n"

/-- The method `sendToCodex`. -/
def sendToCodex (message : JsVal) (w : World) : World :=
  { w with stdout := w.stdout ++ [outputLine message], sent := w.sent ++ [message] }

/-- The object `sendError` builds. -/
def errorEnvelope (id : JsVal) (code : Int) (message : String) : JsVal :=
  .obj [(js "jsonrpc", .str (js "2.0")), (js "id", id),
    (js "error", .obj [(js "code", .num (JsNum.ofInt code)), (js "message", .str (js message))])]

/-- The method `sendError`. -/
def sendError (id : JsVal) (code : Int) (message : String) (w : World) : World :=
  sendToCodex (errorEnvelope id code message) w

/-- The object a handler builds on success. -/
def resultEnvelope (id : JsVal) (result : JsVal) : JsVal :=
  .obj [(js "jsonrpc", .str (js "2.0")), (js "id", id), (js "result", result)]

/-- The `catch` block shared by the handlers: `sendError(request.id, -32603, message)`. -/
def handlerCatch (request : JsVal) (message : String) (w : World) : Completion × World :=
  match getProp request (js "id") with
  | .error e => (.throw e, w)
  | .ok id => (.normal, sendError id (-32603) message w)

/-- The method `handleToolsList`. -/
def RubeMCPAdapter.handleToolsList (a : RubeMCPAdapter) (net : Transport) (request : JsVal)
    (w : World) : Completion × World :=
  match a.makeRubeRequest net "/tools/list" "GET" .null w with
  | (.pending, w1) => (.pending, w1)
  | (.rejected _, w1) => handlerCatch request "Internal error" w1
  | (.resolved tools, w1) =>
    match getProp request (js "id") with
    | .error _ => handlerCatch request "Internal error" w1
    | .ok id =>
      (.normal, sendToCodex (resultEnvelope id (.obj [(js "tools", jsOr tools (.arr []))])) w1)

/-- The method `handleToolCall`. -/
def RubeMCPAdapter.handleToolCall (a : RubeMCPAdapter) (net : Transport) (request : JsVal)
    (w : World) : Completion × World :=
  match getProp request (js "params") with
  | .error _ => handlerCatch request "Tool call failed" w
  | .ok params =>
    match getProp params (js "name"), getProp params (js "arguments") with
    | .ok name, .ok args =>
      match a.makeRubeRequest net "/tools/call" "POST"
          (.obj [(js "name", name), (js "arguments", args)]) w with
      | (.pending, w1) => (.pending, w1)
      | (.rejected _, w1) => handlerCatch request "Tool call failed" w1
      | (.resolved result, w1) =>
        match getProp request (js "id"), getProp result (js "content"),
            getProp result (js "isError") with
        | .ok id, .ok content, .ok isError =>
          (.normal, sendToCodex (resultEnvelope id
            (.obj [(js "content", jsOr content (.arr [])),
              (js "isError", jsOr isError (.bool false))])) w1)
        | _, _, _ => handlerCatch request "Tool call failed" w1
    | _, _ => handlerCatch request "Tool call failed" w

/-- The method `handleResourcesList`. -/
def RubeMCPAdapter.handleResourcesList (a : RubeMCPAdapter) (net : Transport)
    (request : JsVal) (w : World) : Completion × World :=
  match a.makeRubeRequest net "/resources/list" "GET" .null w with
  | (.pending, w1) => (.pending, w1)
  | (.rejected _, w1) => handlerCatch request "Internal error" w1
  | (.resolved resources, w1) =>
    match getProp request (js "id") with
    | .error _ => handlerCatch request "Internal error" w1
    | .ok id =>
      (.normal,
        sendToCodex (resultEnvelope id (.obj [(js "resources", jsOr resources (.arr []))])) w1)

/-- The method `handleResourceRead`. -/
def RubeMCPAdapter.handleResourceRead (a : RubeMCPAdapter) (net : Transport)
    (request : JsVal) (w : World) : Completion × World :=
  match getProp request (js "params") with
  | .error _ => handlerCatch request "Resource read failed" w
  | .ok params =>
    match getProp params (js "uri") with
    | .error _ => handlerCatch request "Resource read failed" w
    | .ok uri =>
      match encodeURIComponent uri with
      | .error _ => handlerCatch request "Resource read failed" w
      | .ok encoded =>
        match a.makeRubeRequest net ("/resources/read?uri=" ++ encoded) "GET" .null w with
        | (.pending, w1) => (.pending, w1)
        | (.rejected _, w1) => handlerCatch request "Resource read failed" w1
        | (.resolved resource, w1) =>
          match getProp request (js "id"), getProp resource (js "contents") with
          | .ok id, .ok contents =>
            (.normal,
              sendToCodex (resultEnvelope id (.obj [(js "contents", jsOr contents (.arr []))])) w1)
          | _, _ => handlerCatch request "Resource read failed" w1

/-- The `catch` block of `handleCodexMessage`: a report on the diagnostic channel and
`sendError(null, -32700, 'Parse error')`. -/
def parseErrorCatch (w : World) : World :=
  sendError .null (-32700) "Parse error" { w with diagnostics := w.diagnostics + 1 }

/-- What `handleCodexMessage` does once an awaited handler has ended. -/
def afterHandler (r : Completion × World) : World :=
  match r with
  | (.throw _, w) => parseErrorCatch w
  | (_, w) => w

/-- The `switch` of `handleCodexMessage` on a parsed request. -/
def RubeMCPAdapter.dispatch (a : RubeMCPAdapter) (net : Transport) (request : JsVal)
    (w : World) : World :=
  match getProp request (js "method") with
  | .error _ => parseErrorCatch w
  | .ok method =>
    let fallback : World :=
      match getProp request (js "id") with
      | .error _ => parseErrorCatch w
      | .ok id => sendError id (-32601) "Method not found" w
    match method with
    | .str name =>
      if name = js "tools/list" then afterHandler (a.handleToolsList net request w)
      else if name = js "tools/call" then afterHandler (a.handleToolCall net request w)
      else if name = js "resources/list" then afterHandler (a.handleResourcesList net request w)
      else if name = js "resources/read" then afterHandler (a.handleResourceRead net request w)
      else fallback
    | _ => fallback

/-- The method `handleCodexMessage`. -/
def RubeMCPAdapter.handleCodexMessage (a : RubeMCPAdapter) (net : Transport) (message : String)
    (w : World) : World :=
  match jsonParse message with
  | .error _ => parseErrorCatch w
  | .ok request => a.dispatch net request w

/-- The message `setupStdioInterface` sends first. -/
def initializeMessage : JsVal :=
  .obj [(js "jsonrpc", .str (js "2.0")), (js "method", .str (js "initialize")),
    (js "params", .obj [(js "protocolVersion", .str (js "2024-11-05")),
      (js "capabilities", .obj [(js "tools", .obj []), (js "resources", .obj []),
        (js "prompts", .obj [])]),
      (js "serverInfo", .obj [(js "name", .str (js "rube-mcp-adapter")),
        (js "version", .str (js "1.0.0"))])])]

/-- The method `setupStdioInterface`, as far as it acts at once: the capabilities message. -/
def setupStdioInterface (w : World) : World := sendToCodex initializeMessage w

/-- The listener `setupStdioInterface` registers for `data` events of standard input: the
chunk is trimmed and handled as one message. -/
def RubeMCPAdapter.onData (a : RubeMCPAdapter) (net : Transport) (data : String) (w : World) :
    World :=
  a.handleCodexMessage net (jsTrim data) w


/-! ## Vocabulary of the statements -/

/-- Whether `JSON.parse` accepts the text. -/
def isValidJson (text : String) : Bool :=
  match jsonParse text with
  | .ok _ => true
  | .error _ => false

/-- The four method names `handleCodexMessage` knows. -/
def recognizedMethods : List String :=
  ["tools/list", "tools/call", "resources/list", "resources/read"]

/-- Whether the promise of `makeRubeRequest` rejects for a request: the transport fails or
the body is not JSON. -/
def rejects (net : Transport) (r : HttpRequest) : Bool :=
  match net r with
  | .failure => true
  | .body data => !isValidJson data
  | .silence => false

/-- Whether the promise of `makeRubeRequest` settles for a request. -/
def settles (net : Transport) (r : HttpRequest) : Bool :=
  match net r with
  | .silence => false
  | _ => true

/-- The calls of `makeRubeRequest` made between two states of the world. -/
def newRequests (before after : World) : List RubeCall :=
  after.requests.drop before.requests.length

/-- Neither `null` nor `undefined`. -/
def JsVal.isPresent : JsVal → Bool
  | .undefined => false
  | .null => false
  | _ => true

/-- The state the promise of one `makeRubeRequest` call reaches. -/
def RubeMCPAdapter.settle (a : RubeMCPAdapter) (net : Transport) (call : RubeCall) : Settled :=
  match net (a.httpRequest call) with
  | .body data =>
    match jsonParse data with
    | .ok result => .resolved result
    | .error e => .rejected e
  | .failure => .rejected .transportError
  | .silence => .pending

/-- The world after one more call of `makeRubeRequest`. -/
def World.withCall (w : World) (call : RubeCall) : World :=
  { w with requests := w.requests ++ [call] }

/-- An envelope a handler sends for the request with the given id: the error envelope of
its `catch` block, with code -32603, or the result envelope. -/
def IsReplyTo (id env : JsVal) : Prop :=
  (∃ text, env = errorEnvelope id (-32603) text) ∨
    (∃ fields, env = resultEnvelope id (.obj fields))

/-- The two ways a handler can end for a request object: suspended for ever at a call whose
promise stays pending, with nothing sent; or returned after sending one reply, with at most
one call made. -/
def HandlerOutcome (a : RubeMCPAdapter) (net : Transport) (id : JsVal) (w : World)
    (r : Completion × World) : Prop :=
  (r.1 = .pending ∧ ∃ call, r.2 = w.withCall call ∧ a.settle net call = .pending) ∨
  (r.1 = .normal ∧ ∃ env, IsReplyTo id env ∧
    (r.2 = sendToCodex env w ∨ ∃ call, r.2 = sendToCodex env (w.withCall call)))

/-- Whether a character can stand in a query-string value without ending or splitting it:
ASCII, and none of `/`, `?`, `&`, `#`, space. -/
def isQuerySafe (c : Char) : Bool :=
  decide (c.toNat < 128) && c != '/' && c != '?' && c != '&' && c != '#' && c != ' '

/-- The fields of the result object each handler builds. -/
def resultFields (m : String) : List JsString :=
  if m = "tools/list" then [js "tools"]
  else if m = "tools/call" then [js "content", js "isError"]
  else if m = "resources/list" then [js "resources"]
  else [js "contents"]

/-- What a handler reads from the parsed reply `v` for a field of its result: the whole
reply in the two list handlers, the field of the same name in the other two. -/
def backendField (m : String) (v : JsVal) (key : JsString) : JsVal :=
  if m = "tools/list" ∨ m = "resources/list" then v else v.field key

/-- The value written on the right of `||` for a field: `false` for `isError`, `[]` for
every other field. -/
def fieldDefault (key : JsString) : JsVal :=
  if key = js "isError" then .bool false else .arr []

/-- The messages handed to `sendToCodex` between two states of the world. -/
def newSent (before after : World) : List JsVal :=
  after.sent.drop before.sent.length

/-! ## Theorems -/

/-! ### The built-ins on sample inputs -/

set_option maxRecDepth 100000 in
theorem jsonParse_accepts_samples :
    isValidJson " \x7b\"a\":[1,-2.5e3,true,false,null,\"x\\n\\u00e9\"],\"b\":\x7b\x7d\x7d\n" = true ∧
      isValidJson "0" = true ∧ isValidJson "-0.0E+7" = true ∧ isValidJson "\"\"" = true ∧
      isValidJson "[]" = true ∧ isValidJson "\t[ ]\r\n" = true ∧ isValidJson "null" = true := by
  decide

set_option maxRecDepth 100000 in
theorem jsonParse_rejects_samples :
    isValidJson "" = false ∧ isValidJson " " = false ∧ isValidJson "[1,]" = false ∧
      isValidJson "\x7b\"a\":1,\x7d" = false ∧ isValidJson "\x7ba:1\x7d" = false ∧
      isValidJson "01" = false ∧ isValidJson "1." = false ∧ isValidJson ".5" = false ∧
      isValidJson "+1" = false ∧ isValidJson "-" = false ∧ isValidJson "1e" = false ∧
      isValidJson "NaN" = false ∧ isValidJson "undefined" = false ∧
      isValidJson "\"a\nb\"" = false ∧ isValidJson "\"\\x\"" = false ∧
      isValidJson "\"\\u12g4\"" = false ∧ isValidJson "\"abc" = false ∧
      isValidJson "tru" = false ∧ isValidJson "nulll" = false ∧
      isValidJson "[1 2]" = false ∧ isValidJson "\x7b\x7d \x7b\x7d" = false ∧
      isValidJson "\x7b\"a\" 1\x7d" = false ∧ isValidJson "]" = false := by
  decide

set_option maxRecDepth 100000 in
theorem jsonParse_values_samples :
    jsonParse "\x7b\"b\":1,\"1\":2,\"0\":3,\"b\":4\x7d"
        = .ok (.obj [(js "0", .num (.finite false 3 0)), (js "1", .num (.finite false 2 0)),
          (js "b", .num (.finite false 4 0))]) ∧
      jsonParse "\"\\ud83d\\ude00\\u0041\"" = .ok (.str [55357, 56832, 65]) ∧
      jsonParse "-0" = .ok (.num (.finite true 0 0)) ∧
      jsonParse "0.5" = .ok (.num (.finite false 1 1)) ∧
      jsonParse "1e999" = .ok (.num (.infinity false)) ∧
      jsonParse "1e-999" = .ok (.num (.finite false 0 0)) ∧
      jsonParse "9007199254740993" = .ok (.num (.finite false 9007199254740992 0)) :=
  ⟨by rfl, by rfl, by rfl, by rfl, by rfl, by rfl, by rfl⟩

set_option maxRecDepth 100000 in
set_option exponentiation.threshold 2000 in
theorem numberToText_samples :
    (JsNum.ofDecimal false 1 (-1)).toText = "0.1".data ∧
      (JsNum.ofDecimal false 15 (-1)).toText = "1.5".data ∧
      (JsNum.ofDecimal true 32700 0).toText = "-32700".data ∧
      (JsNum.ofDecimal false 1 21).toText = "1e+21".data ∧
      (JsNum.ofDecimal false 1 20).toText = "100000000000000000000".data ∧
      (JsNum.ofDecimal false 1 (-6)).toText = "0.000001".data ∧
      (JsNum.ofDecimal false 1 (-7)).toText = "1e-7".data ∧
      (JsNum.ofDecimal false 123456 (-3)).toText = "123.456".data ∧
      (JsNum.ofDecimal false 12345678901234567890 0).toText = "12345678901234567000".data ∧
      (JsNum.ofDecimal false 5 (-324)).toText = "5e-324".data ∧
      (JsNum.ofDecimal false 17976931348623157 292).toText = "1.7976931348623157e+308".data ∧
      (JsNum.ofDecimal true 0 0).toText = "0".data := by
  decide

set_option maxRecDepth 100000 in
theorem jsonStringify_samples :
    jsonStringify (.obj [(js "a", .undefined), (js "b", .arr [.undefined, .num .nan,
        .num (.infinity true), .str [34, 92, 10, 1, 55296, 233, 55357, 56832]])])
      = some "\x7b\"b\":[null,null,null,\"\\\"\\\\\\n\\u0001\\ud800é😀\"]\x7d" ∧
      jsonStringify .undefined = none ∧
      jsonStringify (.str (js "a/b")) = some "\"a/b\"" := by
  decide

set_option maxRecDepth 100000 in
theorem encodeURIComponent_samples :
    encodeURIComponent (.str (js "a b/c")) = .ok "a%20b%2Fc" ∧
      encodeURIComponent (.str (js "é€😀~'()*!-_.")) = .ok "%C3%A9%E2%82%AC%F0%9F%98%80~'()*!-_." ∧
      encodeURIComponent (.str (js "?&#=+")) = .ok "%3F%26%23%3D%2B" ∧
      encodeURIComponent .undefined = .ok "undefined" ∧
      encodeURIComponent (.obj []) = .ok "%5Bobject%20Object%5D" ∧
      encodeURIComponent (.arr [.num (.finite false 1 0), .null, .arr [.str (js "x")]])
        = .ok "1%2C%2Cx" ∧
      encodeURIComponent (.str [56320]) = .error .uriError ∧
      encodeURIComponent (.str [55357, 65]) = .error .uriError ∧
      encodeURIComponent (.obj [(js "toString", .null)]) = .error .typeError := by
  decide

set_option maxRecDepth 100000 in
theorem jsTrim_samples :
    jsTrim " \t\n\x7b\"a\": 1\x7d \r\n" = "\x7b\"a\": 1\x7d" ∧ jsTrim "\n" = "" ∧
      jsTrim (String.mk [Char.ofNat 65279, 'x', Char.ofNat 160]) = "x" := by
  decide

theorem sendToCodex_sent (m : JsVal) (w : World) :
    (sendToCodex m w).sent = w.sent ++ [m] := rfl

theorem sendToCodex_stdout (m : JsVal) (w : World) :
    (sendToCodex m w).stdout = w.stdout ++ [outputLine m] := rfl

theorem sendToCodex_requests (m : JsVal) (w : World) :
    (sendToCodex m w).requests = w.requests := rfl

theorem parseErrorCatch_sent (w : World) :
    (parseErrorCatch w).sent = w.sent ++ [errorEnvelope .null (-32700) "Parse error"] := rfl

theorem parseErrorCatch_stdout (w : World) :
    (parseErrorCatch w).stdout =
      w.stdout ++ [outputLine (errorEnvelope .null (-32700) "Parse error")] := rfl

theorem parseErrorCatch_requests (w : World) : (parseErrorCatch w).requests = w.requests := rfl

set_option maxRecDepth 100000 in
theorem parse_error_line :
    outputLine (errorEnvelope .null (-32700) "Parse error") =
      "\x7b\"jsonrpc\":\"2.0\",\"id\":null,\"error\":\x7b\"code\":-32700,\"message\":\"Parse error\"\x7d\x7d\n" := by
  decide

theorem outputLine_obj (props : List (JsString × JsVal)) :
    outputLine (.obj props) = String.mk ('{' :: (stringifyProps props true ++ ['}', '\n'])) := by
  apply String.ext
  simp [outputLine, jsonStringify, stringifyVal, String.data_append]

theorem stringifyVal_of_present (v : JsVal) (h : v.isPresent = true) :
    ∃ t, stringifyVal v = some t := by
  cases v with
  | undefined => cases h
  | null => exact ⟨_, rfl⟩
  | bool b => cases b <;> exact ⟨_, rfl⟩
  | num n => cases n <;> exact ⟨_, rfl⟩
  | str s => exact ⟨_, rfl⟩
  | arr items => exact ⟨_, rfl⟩
  | obj props => exact ⟨_, rfl⟩

set_option maxRecDepth 100000 in
theorem stringifyProps_envelope (id : JsVal) (rest : List (JsString × JsVal)) (t : List Char)
    (ht : stringifyVal id = some t) :
    stringifyProps ((js "jsonrpc", .str (js "2.0")) :: (js "id", id) :: rest) true
      = "\"jsonrpc\":\"2.0\",\"id\":".data ++ (t ++ stringifyProps rest false) := by
  have h1 : quoteJson (js "jsonrpc") = "\"jsonrpc\"".data := by decide
  have h2 : quoteJson (js "2.0") = "\"2.0\"".data := by decide
  have h3 : quoteJson (js "id") = "\"id\"".data := by decide
  simp [stringifyProps, stringifyVal, ht, h1, h2, h3]

set_option maxRecDepth 100000 in
theorem errorEnvelope_line (id : JsVal) (code : Int) (text : String) (t : List Char)
    (ht : stringifyVal id = some t) :
    outputLine (errorEnvelope id code text) =
      String.mk ("\x7b\"jsonrpc\":\"2.0\",\"id\":".data ++ t ++ ",\"error\":\x7b\"code\":".data ++
        (JsNum.ofInt code).toText ++ ",\"message\":".data ++ quoteJson (js text) ++
        "\x7d\x7d\n".data) := by
  have h1 : quoteJson (js "error") = "\"error\"".data := by decide
  have h2 : quoteJson (js "code") = "\"code\"".data := by decide
  have h3 : quoteJson (js "message") = "\"message\"".data := by decide
  unfold errorEnvelope
  rw [outputLine_obj, stringifyProps_envelope id _ t ht]
  simp [stringifyProps, stringifyVal, JsNum.ofInt, h1, h2, h3]

set_option maxRecDepth 100000 in
theorem resultEnvelope_line (id result : JsVal) (t r : List Char)
    (ht : stringifyVal id = some t) (hr : stringifyVal result = some r) :
    outputLine (resultEnvelope id result) =
      String.mk ("\x7b\"jsonrpc\":\"2.0\",\"id\":".data ++ t ++ ",\"result\":".data ++ r ++
        "\x7d\n".data) := by
  have h1 : quoteJson (js "result") = "\"result\"".data := by decide
  unfold resultEnvelope
  rw [outputLine_obj, stringifyProps_envelope id _ t ht]
  simp [stringifyProps, stringifyVal, hr, h1]

set_option maxRecDepth 100000 in
theorem internal_error_code_text : (JsNum.ofInt (-32603)).toText = "-32603".data := by decide

set_option maxRecDepth 100000 in
theorem method_not_found_line (id : JsVal) (t : List Char) (ht : stringifyVal id = some t) :
    outputLine (errorEnvelope id (-32601) "Method not found") =
      String.mk ("\x7b\"jsonrpc\":\"2.0\",\"id\":".data ++ t ++
        ",\"error\":\x7b\"code\":-32601,\"message\":\"Method not found\"\x7d\x7d\n".data) := by
  have h1 : (JsNum.ofInt (-32601)).toText = "-32601".data := by decide
  have h2 : quoteJson (js "Method not found") = "\"Method not found\"".data := by decide
  rw [errorEnvelope_line id _ _ t ht, h1, h2]
  simp

set_option maxRecDepth 100000 in
theorem method_not_found_line_no_id :
    outputLine (errorEnvelope .undefined (-32601) "Method not found") =
      "\x7b\"jsonrpc\":\"2.0\",\"error\":\x7b\"code\":-32601,\"message\":\"Method not found\"\x7d\x7d\n" := by
  decide

/-- C1. A message that `JSON.parse` rejects makes `handleCodexMessage` hand exactly one
message to `sendToCodex`, the error envelope with id `null` and code -32700, written as one
line of standard output, and no backend request is made. -/
theorem invalid_json_single_parse_error (a : RubeMCPAdapter) (net : Transport)
    (message : String) (w : World) (h : isValidJson message = false) :
    (a.handleCodexMessage net message w).sent
        = w.sent ++ [errorEnvelope .null (-32700) "Parse error"] ∧
      (errorEnvelope .null (-32700) "Parse error").field (js "id") = .null ∧
      ((errorEnvelope .null (-32700) "Parse error").field (js "error")).field (js "code")
        = .num (.finite true 32700 0) ∧
      (a.handleCodexMessage net message w).stdout = w.stdout ++
        ["\x7b\"jsonrpc\":\"2.0\",\"id\":null,\"error\":\x7b\"code\":-32700,\"message\":\"Parse error\"\x7d\x7d\n"] ∧
      (a.handleCodexMessage net message w).requests = w.requests := by
  unfold isValidJson at h
  unfold RubeMCPAdapter.handleCodexMessage
  cases hp : jsonParse message with
  | ok v => rw [hp] at h; cases h
  | error e =>
    refine ⟨parseErrorCatch_sent w, rfl, rfl, ?_, parseErrorCatch_requests w⟩
    simp only [parseErrorCatch_stdout, parse_error_line]

set_option maxRecDepth 100000 in
/-- C1, at the text `{"jsonrpc":` with no backend. -/
theorem invalid_json_single_parse_error_witness :
    isValidJson "\x7b\"jsonrpc\":" = false ∧
      ((⟨"https://api.rube.app", none⟩ : RubeMCPAdapter).handleCodexMessage
          (fun _ => Reply.failure) "\x7b\"jsonrpc\":" World.initial).stdout =
        ["\x7b\"jsonrpc\":\"2.0\",\"id\":null,\"error\":\x7b\"code\":-32700,\"message\":\"Parse error\"\x7d\x7d\n"] :=
  ⟨by decide,
    (invalid_json_single_parse_error ⟨"https://api.rube.app", none⟩ (fun _ => Reply.failure)
      "\x7b\"jsonrpc\":" World.initial (by decide)).2.2.2.1⟩


theorem getProp_obj (props : List (JsString × JsVal)) (key : JsString) :
    getProp (.obj props) key = .ok ((JsVal.obj props).field key) := rfl

theorem handlerCatch_obj (props : List (JsString × JsVal)) (message : String) (w : World) :
    handlerCatch (.obj props) message w
      = (.normal, sendError ((JsVal.obj props).field (js "id")) (-32603) message w) := rfl

theorem dispatch_unrecognized (a : RubeMCPAdapter) (net : Transport)
    (props : List (JsString × JsVal)) (w : World)
    (h : ∀ m ∈ recognizedMethods, (JsVal.obj props).field (js "method") ≠ .str (js m)) :
    a.dispatch net (.obj props) w
      = sendError ((JsVal.obj props).field (js "id")) (-32601) "Method not found" w := by
  simp only [recognizedMethods, List.mem_cons, List.mem_singleton, forall_eq_or_imp, forall_eq,
    List.not_mem_nil, false_implies, implies_true, and_true] at h
  obtain ⟨h1, h2, h3, h4⟩ := h
  simp only [RubeMCPAdapter.dispatch, getProp_obj]
  cases hm : (JsVal.obj props).field (js "method") with
  | str name =>
    rw [hm] at h1 h2 h3 h4
    have e1 : name ≠ js "tools/list" := fun e => h1 (by rw [e])
    have e2 : name ≠ js "tools/call" := fun e => h2 (by rw [e])
    have e3 : name ≠ js "resources/list" := fun e => h3 (by rw [e])
    have e4 : name ≠ js "resources/read" := fun e => h4 (by rw [e])
    simp only [e1, e2, e3, e4, if_false]
  | _ => rfl

/-- C2. A message that parses to a JSON object whose `method` is none of the four known
names makes `handleCodexMessage` hand exactly one message to `sendToCodex`: the error
envelope with code -32601 whose `id` is the `id` of the request (`undefined` when the request
has none); it is written as one line and no backend request is made. The line is
`{"jsonrpc":"2.0","id":I,"error":{"code":-32601,"message":"Method not found"}}` with `I` the
serialization of the request's `id`, and has no `id` member when the request has none. -/
theorem unknown_method_single_error (a : RubeMCPAdapter) (net : Transport) (message : String)
    (props : List (JsString × JsVal)) (w : World)
    (hparse : jsonParse message = .ok (.obj props))
    (hmethod : ∀ m ∈ recognizedMethods, (JsVal.obj props).field (js "method") ≠ .str (js m)) :
    (a.handleCodexMessage net message w).sent = w.sent ++
        [errorEnvelope ((JsVal.obj props).field (js "id")) (-32601) "Method not found"] ∧
      (errorEnvelope ((JsVal.obj props).field (js "id")) (-32601) "Method not found").field
        (js "id") = (JsVal.obj props).field (js "id") ∧
      ((errorEnvelope ((JsVal.obj props).field (js "id")) (-32601) "Method not found").field
        (js "error")).field (js "code") = .num (.finite true 32601 0) ∧
      (a.handleCodexMessage net message w).stdout = w.stdout ++
        [outputLine
          (errorEnvelope ((JsVal.obj props).field (js "id")) (-32601) "Method not found")] ∧
      (∀ t : List Char, stringifyVal ((JsVal.obj props).field (js "id")) = some t →
        (a.handleCodexMessage net message w).stdout = w.stdout ++
          [String.mk ("\x7b\"jsonrpc\":\"2.0\",\"id\":".data ++ t ++
            ",\"error\":\x7b\"code\":-32601,\"message\":\"Method not found\"\x7d\x7d\n".data)]) ∧
      ((JsVal.obj props).field (js "id") = .undefined →
        (a.handleCodexMessage net message w).stdout = w.stdout ++
          ["\x7b\"jsonrpc\":\"2.0\",\"error\":\x7b\"code\":-32601,\"message\":\"Method not found\"\x7d\x7d\n"]) ∧
      (a.handleCodexMessage net message w).requests = w.requests := by
  have h : a.handleCodexMessage net message w
      = sendError ((JsVal.obj props).field (js "id")) (-32601) "Method not found" w := by
    simp only [RubeMCPAdapter.handleCodexMessage, hparse]
    exact dispatch_unrecognized a net props w hmethod
  rw [h]
  refine ⟨rfl, rfl, rfl, rfl, ?_, ?_, rfl⟩
  · intro t ht
    simp only [sendError, sendToCodex_stdout, method_not_found_line _ t ht]
  · intro hid
    simp only [sendError, sendToCodex_stdout, hid, method_not_found_line_no_id]

set_option maxRecDepth 100000 in
/-- C2, at a `ping` request with id 7. -/
theorem unknown_method_single_error_witness :
    ((⟨"https://api.rube.app", none⟩ : RubeMCPAdapter).handleCodexMessage
        (fun _ => Reply.failure) "\x7b\"jsonrpc\":\"2.0\",\"id\":7,\"method\":\"ping\"\x7d"
        World.initial).sent =
      [errorEnvelope (.num (.finite false 7 0)) (-32601) "Method not found"] :=
  (unknown_method_single_error ⟨"https://api.rube.app", none⟩ (fun _ => Reply.failure)
    "\x7b\"jsonrpc\":\"2.0\",\"id\":7,\"method\":\"ping\"\x7d"
    [(js "jsonrpc", .str (js "2.0")), (js "id", .num (.finite false 7 0)),
      (js "method", .str (js "ping"))]
    World.initial (by rfl)
    (by
      intro m hm
      simp only [recognizedMethods, List.mem_cons, List.mem_singleton, List.not_mem_nil,
        or_false] at hm
      rcases hm with rfl | rfl | rfl | rfl <;>
        (intro h; injection h with h; revert h; decide))).1


theorem makeRubeRequest_eq (a : RubeMCPAdapter) (net : Transport) (path method : String)
    (body : JsVal) (w : World) :
    a.makeRubeRequest net path method body w
      = (a.settle net ⟨path, method, body⟩, w.withCall ⟨path, method, body⟩) := by
  simp only [RubeMCPAdapter.makeRubeRequest, RubeMCPAdapter.settle, World.withCall]
  cases net (a.httpRequest ⟨path, method, body⟩) with
  | body data => cases h : jsonParse data <;> simp only [h]
  | failure => rfl
  | silence => rfl

theorem getProp_present (v : JsVal) (key : JsString) (h : v.isPresent = true) :
    getProp v key = .ok (v.field key) := by
  cases v <;> first | rfl | cases h

theorem getProp_absent (v : JsVal) (key : JsString) (h : v.isPresent = false) :
    getProp v key = .error .typeError := by
  cases v <;> first | rfl | cases h

theorem handleToolsList_obj (a : RubeMCPAdapter) (net : Transport)
    (props : List (JsString × JsVal)) (w : World) :
    a.handleToolsList net (.obj props) w =
      match a.settle net ⟨"/tools/list", "GET", .null⟩ with
      | .pending => (.pending, w.withCall ⟨"/tools/list", "GET", .null⟩)
      | .rejected _ =>
        (.normal, sendError ((JsVal.obj props).field (js "id")) (-32603) "Internal error"
          (w.withCall ⟨"/tools/list", "GET", .null⟩))
      | .resolved tools =>
        (.normal, sendToCodex (resultEnvelope ((JsVal.obj props).field (js "id"))
          (.obj [(js "tools", jsOr tools (.arr []))])) (w.withCall ⟨"/tools/list", "GET", .null⟩)) := by
  unfold RubeMCPAdapter.handleToolsList
  rw [makeRubeRequest_eq]
  cases a.settle net ⟨"/tools/list", "GET", .null⟩ <;> rfl

theorem handleResourcesList_obj (a : RubeMCPAdapter) (net : Transport)
    (props : List (JsString × JsVal)) (w : World) :
    a.handleResourcesList net (.obj props) w =
      match a.settle net ⟨"/resources/list", "GET", .null⟩ with
      | .pending => (.pending, w.withCall ⟨"/resources/list", "GET", .null⟩)
      | .rejected _ =>
        (.normal, sendError ((JsVal.obj props).field (js "id")) (-32603) "Internal error"
          (w.withCall ⟨"/resources/list", "GET", .null⟩))
      | .resolved resources =>
        (.normal, sendToCodex (resultEnvelope ((JsVal.obj props).field (js "id"))
          (.obj [(js "resources", jsOr resources (.arr []))]))
          (w.withCall ⟨"/resources/list", "GET", .null⟩)) := by
  unfold RubeMCPAdapter.handleResourcesList
  rw [makeRubeRequest_eq]
  cases a.settle net ⟨"/resources/list", "GET", .null⟩ <;> rfl

theorem handleToolCall_obj_absent (a : RubeMCPAdapter) (net : Transport)
    (props : List (JsString × JsVal)) (w : World)
    (h : ((JsVal.obj props).field (js "params")).isPresent = false) :
    a.handleToolCall net (.obj props) w =
      (.normal, sendError ((JsVal.obj props).field (js "id")) (-32603) "Tool call failed" w) := by
  unfold RubeMCPAdapter.handleToolCall
  simp only [getProp_obj, getProp_absent _ _ h, handlerCatch_obj]

theorem handleToolCall_obj_present (a : RubeMCPAdapter) (net : Transport)
    (props : List (JsString × JsVal)) (w : World)
    (h : ((JsVal.obj props).field (js "params")).isPresent = true) :
    a.handleToolCall net (.obj props) w =
      match a.settle net ⟨"/tools/call", "POST",
          .obj [(js "name", ((JsVal.obj props).field (js "params")).field (js "name")),
            (js "arguments", ((JsVal.obj props).field (js "params")).field (js "arguments"))]⟩ with
      | .pending => (.pending, w.withCall ⟨"/tools/call", "POST",
          .obj [(js "name", ((JsVal.obj props).field (js "params")).field (js "name")),
            (js "arguments", ((JsVal.obj props).field (js "params")).field (js "arguments"))]⟩)
      | .rejected _ =>
        (.normal, sendError ((JsVal.obj props).field (js "id")) (-32603) "Tool call failed"
          (w.withCall ⟨"/tools/call", "POST",
          .obj [(js "name", ((JsVal.obj props).field (js "params")).field (js "name")),
            (js "arguments", ((JsVal.obj props).field (js "params")).field (js "arguments"))]⟩))
      | .resolved result =>
        if result.isPresent then
          (.normal, sendToCodex (resultEnvelope ((JsVal.obj props).field (js "id"))
            (.obj [(js "content", jsOr (result.field (js "content")) (.arr [])),
              (js "isError", jsOr (result.field (js "isError")) (.bool false))]))
            (w.withCall ⟨"/tools/call", "POST",
          .obj [(js "name", ((JsVal.obj props).field (js "params")).field (js "name")),
            (js "arguments", ((JsVal.obj props).field (js "params")).field (js "arguments"))]⟩))
        else
          (.normal, sendError ((JsVal.obj props).field (js "id")) (-32603) "Tool call failed"
            (w.withCall ⟨"/tools/call", "POST",
          .obj [(js "name", ((JsVal.obj props).field (js "params")).field (js "name")),
            (js "arguments", ((JsVal.obj props).field (js "params")).field (js "arguments"))]⟩)) := by
  unfold RubeMCPAdapter.handleToolCall
  simp only [getProp_obj, getProp_present _ _ h, makeRubeRequest_eq]
  cases hs : a.settle net ⟨"/tools/call", "POST",
          .obj [(js "name", ((JsVal.obj props).field (js "params")).field (js "name")),
            (js "arguments", ((JsVal.obj props).field (js "params")).field (js "arguments"))]⟩ with
  | pending => rfl
  | rejected e => rfl
  | resolved result =>
    cases hr : result.isPresent with
    | true => simp [getProp_present _ _ hr, hr]
    | false => simp [getProp_absent _ _ hr, handlerCatch_obj, hr]


theorem handleResourceRead_obj_absent (a : RubeMCPAdapter) (net : Transport)
    (props : List (JsString × JsVal)) (w : World)
    (h : ((JsVal.obj props).field (js "params")).isPresent = false) :
    a.handleResourceRead net (.obj props) w =
      (.normal,
        sendError ((JsVal.obj props).field (js "id")) (-32603) "Resource read failed" w) := by
  unfold RubeMCPAdapter.handleResourceRead
  simp only [getProp_obj, getProp_absent _ _ h, handlerCatch_obj]

theorem handleResourceRead_obj_unencodable (a : RubeMCPAdapter) (net : Transport)
    (props : List (JsString × JsVal)) (w : World) (e : JsError)
    (h : ((JsVal.obj props).field (js "params")).isPresent = true)
    (henc : encodeURIComponent (((JsVal.obj props).field (js "params")).field (js "uri"))
      = .error e) :
    a.handleResourceRead net (.obj props) w =
      (.normal,
        sendError ((JsVal.obj props).field (js "id")) (-32603) "Resource read failed" w) := by
  unfold RubeMCPAdapter.handleResourceRead
  simp only [getProp_obj, getProp_present _ _ h, henc, handlerCatch_obj]

theorem handleResourceRead_obj_encoded (a : RubeMCPAdapter) (net : Transport)
    (props : List (JsString × JsVal)) (w : World) (encoded : String)
    (h : ((JsVal.obj props).field (js "params")).isPresent = true)
    (henc : encodeURIComponent (((JsVal.obj props).field (js "params")).field (js "uri"))
      = .ok encoded) :
    a.handleResourceRead net (.obj props) w =
      match a.settle net ⟨"/resources/read?uri=" ++ encoded, "GET", .null⟩ with
      | .pending => (.pending, w.withCall ⟨"/resources/read?uri=" ++ encoded, "GET", .null⟩)
      | .rejected _ =>
        (.normal, sendError ((JsVal.obj props).field (js "id")) (-32603) "Resource read failed"
          (w.withCall ⟨"/resources/read?uri=" ++ encoded, "GET", .null⟩))
      | .resolved resource =>
        if resource.isPresent then
          (.normal, sendToCodex (resultEnvelope ((JsVal.obj props).field (js "id"))
            (.obj [(js "contents", jsOr (resource.field (js "contents")) (.arr []))]))
            (w.withCall ⟨"/resources/read?uri=" ++ encoded, "GET", .null⟩))
        else
          (.normal, sendError ((JsVal.obj props).field (js "id")) (-32603) "Resource read failed"
            (w.withCall ⟨"/resources/read?uri=" ++ encoded, "GET", .null⟩)) := by
  unfold RubeMCPAdapter.handleResourceRead
  simp only [getProp_obj, getProp_present _ _ h, henc, makeRubeRequest_eq]
  cases hs : a.settle net ⟨"/resources/read?uri=" ++ encoded, "GET", .null⟩ with
  | pending => rfl
  | rejected e => rfl
  | resolved resource =>
    cases hr : resource.isPresent with
    | true => simp [getProp_present _ _ hr, hr]
    | false => simp [getProp_absent _ _ hr, handlerCatch_obj, hr]

theorem dispatch_toolsList (a : RubeMCPAdapter) (net : Transport)
    (props : List (JsString × JsVal)) (w : World)
    (h : (JsVal.obj props).field (js "method") = .str (js "tools/list")) :
    a.dispatch net (.obj props) w = afterHandler (a.handleToolsList net (.obj props) w) := by
  simp only [RubeMCPAdapter.dispatch, getProp_obj, h, if_true]

theorem dispatch_toolCall (a : RubeMCPAdapter) (net : Transport)
    (props : List (JsString × JsVal)) (w : World)
    (h : (JsVal.obj props).field (js "method") = .str (js "tools/call")) :
    a.dispatch net (.obj props) w = afterHandler (a.handleToolCall net (.obj props) w) := by
  have h1 : js "tools/call" ≠ js "tools/list" := by decide
  simp only [RubeMCPAdapter.dispatch, getProp_obj, h, h1, if_true, if_false]

theorem dispatch_resourcesList (a : RubeMCPAdapter) (net : Transport)
    (props : List (JsString × JsVal)) (w : World)
    (h : (JsVal.obj props).field (js "method") = .str (js "resources/list")) :
    a.dispatch net (.obj props) w = afterHandler (a.handleResourcesList net (.obj props) w) := by
  have h1 : js "resources/list" ≠ js "tools/list" := by decide
  have h2 : js "resources/list" ≠ js "tools/call" := by decide
  simp only [RubeMCPAdapter.dispatch, getProp_obj, h, h1, h2, if_true, if_false]

theorem dispatch_resourceRead (a : RubeMCPAdapter) (net : Transport)
    (props : List (JsString × JsVal)) (w : World)
    (h : (JsVal.obj props).field (js "method") = .str (js "resources/read")) :
    a.dispatch net (.obj props) w = afterHandler (a.handleResourceRead net (.obj props) w) := by
  have h1 : js "resources/read" ≠ js "tools/list" := by decide
  have h2 : js "resources/read" ≠ js "tools/call" := by decide
  have h3 : js "resources/read" ≠ js "resources/list" := by decide
  simp only [RubeMCPAdapter.dispatch, getProp_obj, h, h1, h2, h3, if_true, if_false]

theorem settle_pending_iff (a : RubeMCPAdapter) (net : Transport) (call : RubeCall) :
    a.settle net call = .pending ↔ settles net (a.httpRequest call) = false := by
  unfold RubeMCPAdapter.settle settles
  cases net (a.httpRequest call) with
  | body data => cases h : jsonParse data <;> simp [h]
  | failure => simp
  | silence => simp

theorem settle_rejected_iff (a : RubeMCPAdapter) (net : Transport) (call : RubeCall) :
    (∃ e, a.settle net call = .rejected e) ↔ rejects net (a.httpRequest call) = true := by
  unfold RubeMCPAdapter.settle rejects isValidJson
  cases net (a.httpRequest call) with
  | body data => cases h : jsonParse data <;> simp [h]
  | failure => simp
  | silence => simp

theorem newRequests_withCall (w : World) (call : RubeCall) :
    newRequests w (w.withCall call) = [call] := by
  simp [newRequests, World.withCall]

theorem newRequests_sendToCodex (w w2 : World) (m : JsVal) :
    newRequests w (sendToCodex m w2) = newRequests w w2 := rfl

theorem newRequests_sendError (w w2 : World) (id : JsVal) (code : Int) (msg : String) :
    newRequests w (sendError id code msg w2) = newRequests w w2 := rfl

theorem newRequests_self (w : World) : newRequests w w = [] := by
  simp [newRequests]


theorem obj_of_getProp_str (v : JsVal) (key s : JsString) (h : getProp v key = .ok (.str s)) :
    ∃ props, v = .obj props := by
  cases v with
  | obj props => exact ⟨props, rfl⟩
  | undefined => cases h
  | null => cases h
  | bool b => cases h
  | num n => cases h
  | str t => cases h
  | arr items => cases h

theorem not_rejects_of_pending (a : RubeMCPAdapter) (net : Transport) (call : RubeCall)
    (hs : a.settle net call = .pending) : rejects net (a.httpRequest call) ≠ true := by
  intro h
  obtain ⟨e, he⟩ := (settle_rejected_iff a net call).mpr h
  rw [hs] at he
  cases he

theorem not_rejects_of_resolved (a : RubeMCPAdapter) (net : Transport) (call : RubeCall)
    (v : JsVal) (hs : a.settle net call = .resolved v) :
    rejects net (a.httpRequest call) ≠ true := by
  intro h
  obtain ⟨e, he⟩ := (settle_rejected_iff a net call).mpr h
  rw [hs] at he
  cases he

theorem mem_recognized (m : String) (h : m ∈ recognizedMethods) :
    m = "tools/list" ∨ m = "tools/call" ∨ m = "resources/list" ∨ m = "resources/read" := by
  simpa [recognizedMethods] using h

theorem backend_failure_core (a : RubeMCPAdapter) (net : Transport)
    (message : String) (request : JsVal) (w : World)
    (hparse : jsonParse message = .ok request)
    (hmethod : ∃ m ∈ recognizedMethods, getProp request (js "method") = .ok (.str (js m)))
    (hfail : ∀ call ∈ newRequests w (a.handleCodexMessage net message w),
      rejects net (a.httpRequest call) = true) :
    ∃ text : String,
      (a.handleCodexMessage net message w).sent
          = w.sent ++ [errorEnvelope (request.field (js "id")) (-32603) text] ∧
        (errorEnvelope (request.field (js "id")) (-32603) text).field (js "id")
          = request.field (js "id") ∧
        ((errorEnvelope (request.field (js "id")) (-32603) text).field (js "error")).field
          (js "code") = .num (.finite true 32603 0) ∧
        (a.handleCodexMessage net message w).stdout
          = w.stdout ++ [outputLine (errorEnvelope (request.field (js "id")) (-32603) text)] := by
  obtain ⟨m, hm, hget⟩ := hmethod
  obtain ⟨props, rfl⟩ := obj_of_getProp_str _ _ _ hget
  have hfield : (JsVal.obj props).field (js "method") = .str (js m) := by
    have := hget
    rw [getProp_obj] at this
    injection this
  have hrun : a.handleCodexMessage net message w = a.dispatch net (.obj props) w := by
    simp only [RubeMCPAdapter.handleCodexMessage, hparse]
  rw [hrun] at hfail ⊢
  rcases mem_recognized m hm with rfl | rfl | rfl | rfl
  · rw [dispatch_toolsList a net props w hfield, handleToolsList_obj] at hfail ⊢
    cases hs : a.settle net ⟨"/tools/list", "GET", .null⟩ with
    | pending =>
      rw [hs] at hfail
      exact absurd (hfail _ (by simp [afterHandler, newRequests_withCall]))
        (not_rejects_of_pending a net _ hs)
    | rejected e => exact ⟨"Internal error", rfl, rfl, rfl, rfl⟩
    | resolved v =>
      rw [hs] at hfail
      exact absurd (hfail _ (by
        simp [afterHandler, newRequests_sendToCodex, newRequests_withCall]))
        (not_rejects_of_resolved a net _ v hs)
  · cases hp : ((JsVal.obj props).field (js "params")).isPresent with
    | false =>
      rw [dispatch_toolCall a net props w hfield, handleToolCall_obj_absent a net props w hp]
      exact ⟨"Tool call failed", rfl, rfl, rfl, rfl⟩
    | true =>
      rw [dispatch_toolCall a net props w hfield,
        handleToolCall_obj_present a net props w hp] at hfail ⊢
      cases hs : a.settle net ⟨"/tools/call", "POST",
          .obj [(js "name", ((JsVal.obj props).field (js "params")).field (js "name")),
            (js "arguments", ((JsVal.obj props).field (js "params")).field (js "arguments"))]⟩ with
      | pending =>
        rw [hs] at hfail
        exact absurd (hfail _ (by simp [afterHandler, newRequests_withCall]))
          (not_rejects_of_pending a net _ hs)
      | rejected e => exact ⟨"Tool call failed", rfl, rfl, rfl, rfl⟩
      | resolved v =>
        rw [hs] at hfail
        refine absurd (hfail _ ?_) (not_rejects_of_resolved a net _ v hs)
        cases hv : v.isPresent <;>
          simp [hv, afterHandler, newRequests_sendToCodex, newRequests_sendError,
            newRequests_withCall]
  · rw [dispatch_resourcesList a net props w hfield, handleResourcesList_obj] at hfail ⊢
    cases hs : a.settle net ⟨"/resources/list", "GET", .null⟩ with
    | pending =>
      rw [hs] at hfail
      exact absurd (hfail _ (by simp [afterHandler, newRequests_withCall]))
        (not_rejects_of_pending a net _ hs)
    | rejected e => exact ⟨"Internal error", rfl, rfl, rfl, rfl⟩
    | resolved v =>
      rw [hs] at hfail
      exact absurd (hfail _ (by
        simp [afterHandler, newRequests_sendToCodex, newRequests_withCall]))
        (not_rejects_of_resolved a net _ v hs)
  · cases hp : ((JsVal.obj props).field (js "params")).isPresent with
    | false =>
      rw [dispatch_resourceRead a net props w hfield,
        handleResourceRead_obj_absent a net props w hp]
      exact ⟨"Resource read failed", rfl, rfl, rfl, rfl⟩
    | true =>
      cases henc : encodeURIComponent
          (((JsVal.obj props).field (js "params")).field (js "uri")) with
      | error e =>
        rw [dispatch_resourceRead a net props w hfield,
          handleResourceRead_obj_unencodable a net props w e hp henc]
        exact ⟨"Resource read failed", rfl, rfl, rfl, rfl⟩
      | ok encoded =>
        rw [dispatch_resourceRead a net props w hfield,
          handleResourceRead_obj_encoded a net props w encoded hp henc] at hfail ⊢
        cases hs : a.settle net ⟨"/resources/read?uri=" ++ encoded, "GET", .null⟩ with
        | pending =>
          rw [hs] at hfail
          exact absurd (hfail _ (by simp [afterHandler, newRequests_withCall]))
            (not_rejects_of_pending a net _ hs)
        | rejected e => exact ⟨"Resource read failed", rfl, rfl, rfl, rfl⟩
        | resolved v =>
          rw [hs] at hfail
          refine absurd (hfail _ ?_) (not_rejects_of_resolved a net _ v hs)
          cases hv : v.isPresent <;>
            simp [hv, afterHandler, newRequests_sendToCodex, newRequests_sendError,
              newRequests_withCall]


/-- C3. When the request names one of the four known methods and every call of
`makeRubeRequest` made while handling it is rejected (the transport fails or the body is not
JSON), exactly one message is handed to `sendToCodex`: an error envelope with code -32603 and
the `id` of the request, written as one line,
`{"jsonrpc":"2.0","id":I,"error":{"code":-32603,"message":M}}` with `I` the serialization of
the request's `id`. -/
theorem backend_failure_single_internal_error (a : RubeMCPAdapter) (net : Transport)
    (message : String) (request : JsVal) (w : World)
    (hparse : jsonParse message = .ok request)
    (hmethod : ∃ m ∈ recognizedMethods, getProp request (js "method") = .ok (.str (js m)))
    (hfail : ∀ call ∈ newRequests w (a.handleCodexMessage net message w),
      rejects net (a.httpRequest call) = true) :
    ∃ text : String,
      (a.handleCodexMessage net message w).sent
          = w.sent ++ [errorEnvelope (request.field (js "id")) (-32603) text] ∧
        (errorEnvelope (request.field (js "id")) (-32603) text).field (js "id")
          = request.field (js "id") ∧
        ((errorEnvelope (request.field (js "id")) (-32603) text).field (js "error")).field
          (js "code") = .num (.finite true 32603 0) ∧
        (a.handleCodexMessage net message w).stdout
          = w.stdout ++ [outputLine (errorEnvelope (request.field (js "id")) (-32603) text)] ∧
        (∀ t : List Char, stringifyVal (request.field (js "id")) = some t →
          (a.handleCodexMessage net message w).stdout = w.stdout ++
            [String.mk ("\x7b\"jsonrpc\":\"2.0\",\"id\":".data ++ t ++
              ",\"error\":\x7b\"code\":-32603,\"message\":".data ++ quoteJson (js text) ++
              "\x7d\x7d\n".data)]) := by
  obtain ⟨text, h1, h2, h3, h4⟩ :=
    backend_failure_core a net message request w hparse hmethod hfail
  refine ⟨text, h1, h2, h3, h4, ?_⟩
  intro t ht
  rw [h4, errorEnvelope_line _ _ _ t ht, internal_error_code_text]
  simp

set_option maxRecDepth 100000 in
/-- C3, at a `tools/list` request with id 3 whose response body is not JSON. -/
theorem backend_failure_single_internal_error_witness :
    ∃ text : String,
      ((⟨"https://api.rube.app", none⟩ : RubeMCPAdapter).handleCodexMessage
          (fun _ => Reply.body "<html>")
          "\x7b\"jsonrpc\":\"2.0\",\"id\":3,\"method\":\"tools/list\"\x7d" World.initial).sent =
        [] ++ [errorEnvelope
          (JsVal.field (.obj [(js "jsonrpc", .str (js "2.0")), (js "id", .num (.finite false 3 0)),
            (js "method", .str (js "tools/list"))]) (js "id")) (-32603) text] :=
  (backend_failure_single_internal_error ⟨"https://api.rube.app", none⟩
    (fun _ => Reply.body "<html>")
    "\x7b\"jsonrpc\":\"2.0\",\"id\":3,\"method\":\"tools/list\"\x7d"
    (.obj [(js "jsonrpc", .str (js "2.0")), (js "id", .num (.finite false 3 0)),
      (js "method", .str (js "tools/list"))])
    World.initial (by rfl) ⟨"tools/list", by decide, by rfl⟩
    (fun _ _ => by
      show (!isValidJson "<html>") = true
      decide)).imp fun _ h => h.1

theorem isReplyTo_error (id : JsVal) (text : String) :
    IsReplyTo id (errorEnvelope id (-32603) text) := Or.inl ⟨text, rfl⟩

theorem isReplyTo_result (id : JsVal) (fields : List (JsString × JsVal)) :
    IsReplyTo id (resultEnvelope id (.obj fields)) :=
  Or.inr ⟨fields, rfl⟩

theorem handleToolsList_outcome (a : RubeMCPAdapter) (net : Transport)
    (props : List (JsString × JsVal)) (w : World) :
    HandlerOutcome a net ((JsVal.obj props).field (js "id")) w
      (a.handleToolsList net (.obj props) w) := by
  rw [handleToolsList_obj]
  cases hs : a.settle net ⟨"/tools/list", "GET", .null⟩ with
  | pending => exact Or.inl ⟨rfl, _, rfl, hs⟩
  | rejected e => exact Or.inr ⟨rfl, _, isReplyTo_error _ _, Or.inr ⟨_, rfl⟩⟩
  | resolved v => exact Or.inr ⟨rfl, _, isReplyTo_result _ _, Or.inr ⟨_, rfl⟩⟩

theorem handleResourcesList_outcome (a : RubeMCPAdapter) (net : Transport)
    (props : List (JsString × JsVal)) (w : World) :
    HandlerOutcome a net ((JsVal.obj props).field (js "id")) w
      (a.handleResourcesList net (.obj props) w) := by
  rw [handleResourcesList_obj]
  cases hs : a.settle net ⟨"/resources/list", "GET", .null⟩ with
  | pending => exact Or.inl ⟨rfl, _, rfl, hs⟩
  | rejected e => exact Or.inr ⟨rfl, _, isReplyTo_error _ _, Or.inr ⟨_, rfl⟩⟩
  | resolved v => exact Or.inr ⟨rfl, _, isReplyTo_result _ _, Or.inr ⟨_, rfl⟩⟩

theorem handleToolCall_outcome (a : RubeMCPAdapter) (net : Transport)
    (props : List (JsString × JsVal)) (w : World) :
    HandlerOutcome a net ((JsVal.obj props).field (js "id")) w
      (a.handleToolCall net (.obj props) w) := by
  cases hp : ((JsVal.obj props).field (js "params")).isPresent with
  | false =>
    rw [handleToolCall_obj_absent a net props w hp]
    exact Or.inr ⟨rfl, _, isReplyTo_error _ _, Or.inl rfl⟩
  | true =>
    rw [handleToolCall_obj_present a net props w hp]
    cases hs : a.settle net ⟨"/tools/call", "POST",
        .obj [(js "name", ((JsVal.obj props).field (js "params")).field (js "name")),
          (js "arguments", ((JsVal.obj props).field (js "params")).field (js "arguments"))]⟩ with
    | pending => exact Or.inl ⟨rfl, _, rfl, hs⟩
    | rejected e => exact Or.inr ⟨rfl, _, isReplyTo_error _ _, Or.inr ⟨_, rfl⟩⟩
    | resolved v =>
      cases hv : v.isPresent with
      | true =>
        simp only [hv, if_true]
        exact Or.inr ⟨rfl, _, isReplyTo_result _ _, Or.inr ⟨_, rfl⟩⟩
      | false =>
        simp only [hv, Bool.false_eq_true, if_false]
        exact Or.inr ⟨rfl, _, isReplyTo_error _ _, Or.inr ⟨_, rfl⟩⟩

theorem handleResourceRead_outcome (a : RubeMCPAdapter) (net : Transport)
    (props : List (JsString × JsVal)) (w : World) :
    HandlerOutcome a net ((JsVal.obj props).field (js "id")) w
      (a.handleResourceRead net (.obj props) w) := by
  cases hp : ((JsVal.obj props).field (js "params")).isPresent with
  | false =>
    rw [handleResourceRead_obj_absent a net props w hp]
    exact Or.inr ⟨rfl, _, isReplyTo_error _ _, Or.inl rfl⟩
  | true =>
    cases henc : encodeURIComponent
        (((JsVal.obj props).field (js "params")).field (js "uri")) with
    | error e =>
      rw [handleResourceRead_obj_unencodable a net props w e hp henc]
      exact Or.inr ⟨rfl, _, isReplyTo_error _ _, Or.inl rfl⟩
    | ok encoded =>
      rw [handleResourceRead_obj_encoded a net props w encoded hp henc]
      cases hs : a.settle net ⟨"/resources/read?uri=" ++ encoded, "GET", .null⟩ with
      | pending => exact Or.inl ⟨rfl, _, rfl, hs⟩
      | rejected e => exact Or.inr ⟨rfl, _, isReplyTo_error _ _, Or.inr ⟨_, rfl⟩⟩
      | resolved v =>
        cases hv : v.isPresent with
        | true =>
          simp only [hv, if_true]
          exact Or.inr ⟨rfl, _, isReplyTo_result _ _, Or.inr ⟨_, rfl⟩⟩
        | false =>
          simp only [hv, Bool.false_eq_true, if_false]
          exact Or.inr ⟨rfl, _, isReplyTo_error _ _, Or.inr ⟨_, rfl⟩⟩

theorem dispatch_obj_cases (a : RubeMCPAdapter) (net : Transport)
    (props : List (JsString × JsVal)) (w : World) :
    a.dispatch net (.obj props) w
        = sendError ((JsVal.obj props).field (js "id")) (-32601) "Method not found" w ∨
      ∃ r, HandlerOutcome a net ((JsVal.obj props).field (js "id")) w r ∧
        a.dispatch net (.obj props) w = afterHandler r := by
  by_cases h1 : (JsVal.obj props).field (js "method") = .str (js "tools/list")
  · exact Or.inr ⟨_, handleToolsList_outcome a net props w, dispatch_toolsList a net props w h1⟩
  by_cases h2 : (JsVal.obj props).field (js "method") = .str (js "tools/call")
  · exact Or.inr ⟨_, handleToolCall_outcome a net props w, dispatch_toolCall a net props w h2⟩
  by_cases h3 : (JsVal.obj props).field (js "method") = .str (js "resources/list")
  · exact Or.inr ⟨_, handleResourcesList_outcome a net props w,
      dispatch_resourcesList a net props w h3⟩
  by_cases h4 : (JsVal.obj props).field (js "method") = .str (js "resources/read")
  · exact Or.inr ⟨_, handleResourceRead_outcome a net props w,
      dispatch_resourceRead a net props w h4⟩
  refine Or.inl (dispatch_unrecognized a net props w ?_)
  intro m hm
  rcases mem_recognized m hm with rfl | rfl | rfl | rfl <;> assumption

theorem field_id_of_isReplyTo (id env : JsVal) (h : IsReplyTo id env) :
    env.field (js "id") = id ∧
      ((env.hasField (js "result") = true ∧ env.hasField (js "error") = false) ∨
        (env.hasField (js "result") = false ∧ env.hasField (js "error") = true)) := by
  rcases h with ⟨text, rfl⟩ | ⟨result, rfl⟩
  · exact ⟨rfl, Or.inr ⟨rfl, rfl⟩⟩
  · exact ⟨rfl, Or.inl ⟨rfl, rfl⟩⟩

theorem one_envelope_core (a : RubeMCPAdapter) (net : Transport) (message : String)
    (props : List (JsString × JsVal)) (w : World)
    (hparse : jsonParse message = .ok (.obj props))
    (hsettle : ∀ call ∈ newRequests w (a.handleCodexMessage net message w),
      settles net (a.httpRequest call) = true) :
    ∃ env : JsVal,
      (a.handleCodexMessage net message w).sent = w.sent ++ [env] ∧
        (a.handleCodexMessage net message w).stdout = w.stdout ++ [outputLine env] ∧
        (env = errorEnvelope ((JsVal.obj props).field (js "id")) (-32601) "Method not found" ∨
          IsReplyTo ((JsVal.obj props).field (js "id")) env) := by
  have hrun : a.handleCodexMessage net message w = a.dispatch net (.obj props) w := by
    simp only [RubeMCPAdapter.handleCodexMessage, hparse]
  rw [hrun] at hsettle ⊢
  rcases dispatch_obj_cases a net props w with h | ⟨r, hr, h⟩
  · rw [h]
    exact ⟨_, rfl, rfl, Or.inl rfl⟩
  · rw [h] at hsettle ⊢
    rcases hr with ⟨hc, call, hw, hs⟩ | ⟨hc, env, henv, hw⟩
    · exfalso
      obtain ⟨c, w2⟩ := r
      simp only at hc hw
      subst hc hw
      have := hsettle call (by simp [afterHandler, newRequests_withCall])
      rw [(settle_pending_iff a net call).mp hs] at this
      cases this
    · obtain ⟨c, w2⟩ := r
      simp only at hc hw
      subst hc
      rcases hw with rfl | ⟨call, rfl⟩
      · exact ⟨env, rfl, rfl, Or.inr henv⟩
      · exact ⟨env, rfl, rfl, Or.inr henv⟩

theorem reply_line_carries_id (id env : JsVal) (t : List Char)
    (h : env = errorEnvelope id (-32601) "Method not found" ∨ IsReplyTo id env)
    (ht : stringifyVal id = some t) :
    ∃ rest : List Char,
      outputLine env = String.mk ("\x7b\"jsonrpc\":\"2.0\",\"id\":".data ++ t ++ rest) := by
  rcases h with rfl | ⟨text, rfl⟩ | ⟨fields, rfl⟩
  · refine ⟨",\"error\":\x7b\"code\":".data ++ ((JsNum.ofInt (-32601)).toText ++
      (",\"message\":".data ++ (quoteJson (js "Method not found") ++ "\x7d\x7d\n".data))), ?_⟩
    rw [errorEnvelope_line _ _ _ t ht]
    simp only [List.append_assoc]
  · refine ⟨",\"error\":\x7b\"code\":".data ++ ((JsNum.ofInt (-32603)).toText ++
      (",\"message\":".data ++ (quoteJson (js text) ++ "\x7d\x7d\n".data))), ?_⟩
    rw [errorEnvelope_line _ _ _ t ht]
    simp only [List.append_assoc]
  · refine ⟨",\"result\":".data ++
      (('\x7b' :: (stringifyProps fields true ++ ['\x7d'])) ++ "\x7d\n".data), ?_⟩
    rw [resultEnvelope_line _ (.obj fields) t _ ht rfl]
    simp only [List.append_assoc]

/-- C4. A request object with a non-null `id` whose backend call, if one is made, settles
(the response ends or the request fails) makes `handleCodexMessage` hand exactly one message
to `sendToCodex` and write exactly one line, the serialization of that message; the message
has the `id` of the request and exactly one of the fields `result` and `error`, and the line
begins `{"jsonrpc":"2.0","id":I` with `I` the serialization of the request's `id`. This holds
for every method and every `params`. -/
theorem one_envelope_with_request_id (a : RubeMCPAdapter) (net : Transport) (message : String)
    (props : List (JsString × JsVal)) (w : World)
    (hparse : jsonParse message = .ok (.obj props))
    (hid : ((JsVal.obj props).field (js "id")).isPresent = true)
    (hsettle : ∀ call ∈ newRequests w (a.handleCodexMessage net message w),
      settles net (a.httpRequest call) = true) :
    ∃ env : JsVal,
      (a.handleCodexMessage net message w).sent = w.sent ++ [env] ∧
        (a.handleCodexMessage net message w).stdout = w.stdout ++ [outputLine env] ∧
        env.field (js "id") = (JsVal.obj props).field (js "id") ∧
        (env.field (js "id")).isPresent = true ∧
        ((env.hasField (js "result") = true ∧ env.hasField (js "error") = false) ∨
          (env.hasField (js "result") = false ∧ env.hasField (js "error") = true)) ∧
        ∃ (t rest : List Char),
          stringifyVal ((JsVal.obj props).field (js "id")) = some t ∧
            outputLine env = String.mk ("\x7b\"jsonrpc\":\"2.0\",\"id\":".data ++ t ++ rest) := by
  obtain ⟨env, h1, h2, h3⟩ := one_envelope_core a net message props w hparse hsettle
  obtain ⟨t, ht⟩ := stringifyVal_of_present _ hid
  obtain ⟨rest, hrest⟩ := reply_line_carries_id _ env t h3 ht
  have h4 : env.field (js "id") = (JsVal.obj props).field (js "id") ∧
      ((env.hasField (js "result") = true ∧ env.hasField (js "error") = false) ∨
        (env.hasField (js "result") = false ∧ env.hasField (js "error") = true)) := by
    rcases h3 with rfl | h3
    · exact ⟨rfl, Or.inr ⟨rfl, rfl⟩⟩
    · exact field_id_of_isReplyTo _ _ h3
  exact ⟨env, h1, h2, h4.1, h4.1 ▸ hid, h4.2, t, rest, ht, hrest⟩

set_option maxRecDepth 100000 in
/-- C4, at a `tools/list` request with id 1 answered with an empty array. -/
theorem one_envelope_with_request_id_witness :
    ∃ env : JsVal,
      ((⟨"https://api.rube.app", none⟩ : RubeMCPAdapter).handleCodexMessage
          (fun _ => Reply.body "[]")
          "\x7b\"jsonrpc\":\"2.0\",\"id\":1,\"method\":\"tools/list\"\x7d" World.initial).sent
        = World.initial.sent ++ [env] ∧
      env.field (js "id") = .num (.finite false 1 0) :=
  (one_envelope_with_request_id ⟨"https://api.rube.app", none⟩ (fun _ => Reply.body "[]")
    "\x7b\"jsonrpc\":\"2.0\",\"id\":1,\"method\":\"tools/list\"\x7d"
    [(js "jsonrpc", .str (js "2.0")), (js "id", .num (.finite false 1 0)),
      (js "method", .str (js "tools/list"))]
    World.initial (by rfl) (by rfl) (fun _ _ => by rfl)).imp fun _ h => ⟨h.1, h.2.2.1⟩

theorem handleCodexMessage_toolCall (a : RubeMCPAdapter) (net : Transport) (message : String)
    (props : List (JsString × JsVal)) (w : World)
    (hparse : jsonParse message = .ok (.obj props))
    (hmethod : (JsVal.obj props).field (js "method") = .str (js "tools/call")) :
    a.handleCodexMessage net message w = afterHandler (a.handleToolCall net (.obj props) w) := by
  simp only [RubeMCPAdapter.handleCodexMessage, hparse]
  exact dispatch_toolCall a net props w hmethod

theorem settle_of_body (a : RubeMCPAdapter) (net : Transport) (call : RubeCall) (data : String)
    (v : JsVal) (hnet : net (a.httpRequest call) = .body data) (hv : jsonParse data = .ok v) :
    a.settle net call = .resolved v := by
  simp only [RubeMCPAdapter.settle, hnet, hv]

theorem toolCall_requests (a : RubeMCPAdapter) (net : Transport) (message : String)
    (props : List (JsString × JsVal)) (w : World)
    (hparse : jsonParse message = .ok (.obj props))
    (hmethod : (JsVal.obj props).field (js "method") = .str (js "tools/call"))
    (hparams : ((JsVal.obj props).field (js "params")).isPresent = true) :
    (a.handleCodexMessage net message w).requests = w.requests ++
      [⟨"/tools/call", "POST",
        .obj [(js "name", ((JsVal.obj props).field (js "params")).field (js "name")),
          (js "arguments", ((JsVal.obj props).field (js "params")).field (js "arguments"))]⟩] := by
  rw [handleCodexMessage_toolCall a net message props w hparse hmethod,
    handleToolCall_obj_present a net props w hparams]
  cases hs : a.settle net ⟨"/tools/call", "POST",
      .obj [(js "name", ((JsVal.obj props).field (js "params")).field (js "name")),
        (js "arguments", ((JsVal.obj props).field (js "params")).field (js "arguments"))]⟩ with
  | pending => rfl
  | rejected e => rfl
  | resolved v => cases hv : v.isPresent <;> simp [hv, afterHandler] <;> rfl

theorem toolCall_reply (a : RubeMCPAdapter) (net : Transport) (message : String)
    (props : List (JsString × JsVal)) (w : World) (data : String)
    (reply : List (JsString × JsVal))
    (hparse : jsonParse message = .ok (.obj props))
    (hmethod : (JsVal.obj props).field (js "method") = .str (js "tools/call"))
    (hparams : ((JsVal.obj props).field (js "params")).isPresent = true)
    (hnet : net (a.httpRequest ⟨"/tools/call", "POST",
        .obj [(js "name", ((JsVal.obj props).field (js "params")).field (js "name")),
          (js "arguments", ((JsVal.obj props).field (js "params")).field (js "arguments"))]⟩)
      = .body data)
    (hreply : jsonParse data = .ok (.obj reply)) :
    a.handleCodexMessage net message w =
      sendToCodex (resultEnvelope ((JsVal.obj props).field (js "id"))
        (.obj [(js "content", jsOr ((JsVal.obj reply).field (js "content")) (.arr [])),
          (js "isError", jsOr ((JsVal.obj reply).field (js "isError")) (.bool false))]))
        (w.withCall ⟨"/tools/call", "POST",
          .obj [(js "name", ((JsVal.obj props).field (js "params")).field (js "name")),
            (js "arguments", ((JsVal.obj props).field (js "params")).field (js "arguments"))]⟩) := by
  rw [handleCodexMessage_toolCall a net message props w hparse hmethod,
    handleToolCall_obj_present a net props w hparams,
    settle_of_body a net _ data _ hnet hreply]
  rfl


set_option maxRecDepth 100000 in
/-- C5, as amended. A `tools/call` request whose `params` is neither `null` nor missing makes
the adapter call the backend exactly once, with path `/tools/call`, verb `POST` and the body
`{name, arguments}` taken from `params`, serialized as the payload. When the reply is a JSON
object `R`, the one message sent is `{jsonrpc, id, result: {content, isError}}` with the keys
in this order, where `content` is `R.content` if that is truthy and `[]` otherwise, and
`isError` is `R.isError` if that is truthy and `false` otherwise; the one line written is
its serialization followed by a newline. The `echo` request of the specification, answered
with `{"content":[{"type":"text","text":"ok"}]}`, produces exactly the line expected there. -/
theorem tool_call_translation (a : RubeMCPAdapter) (net : Transport) (message : String)
    (props : List (JsString × JsVal)) (w : World)
    (hparse : jsonParse message = .ok (.obj props))
    (hmethod : (JsVal.obj props).field (js "method") = .str (js "tools/call"))
    (hparams : ((JsVal.obj props).field (js "params")).isPresent = true) :
    ((a.handleCodexMessage net message w).requests = w.requests ++
        [⟨"/tools/call", "POST",
          .obj [(js "name", ((JsVal.obj props).field (js "params")).field (js "name")),
            (js "arguments", ((JsVal.obj props).field (js "params")).field (js "arguments"))]⟩] ∧
      (a.httpRequest ⟨"/tools/call", "POST",
          .obj [(js "name", ((JsVal.obj props).field (js "params")).field (js "name")),
            (js "arguments", ((JsVal.obj props).field (js "params")).field (js "arguments"))]⟩).payload
        = jsonStringify
          (.obj [(js "name", ((JsVal.obj props).field (js "params")).field (js "name")),
            (js "arguments", ((JsVal.obj props).field (js "params")).field (js "arguments"))])) ∧
    (∀ (data : String) (reply : List (JsString × JsVal)),
      net (a.httpRequest ⟨"/tools/call", "POST",
          .obj [(js "name", ((JsVal.obj props).field (js "params")).field (js "name")),
            (js "arguments", ((JsVal.obj props).field (js "params")).field (js "arguments"))]⟩)
        = .body data →
      jsonParse data = .ok (.obj reply) →
      (a.handleCodexMessage net message w).sent = w.sent ++
          [.obj [(js "jsonrpc", .str (js "2.0")), (js "id", (JsVal.obj props).field (js "id")),
            (js "result", .obj
              [(js "content",
                  if truthy ((JsVal.obj reply).field (js "content"))
                  then (JsVal.obj reply).field (js "content") else .arr []),
                (js "isError",
                  if truthy ((JsVal.obj reply).field (js "isError"))
                  then (JsVal.obj reply).field (js "isError") else .bool false)])]] ∧
        (a.handleCodexMessage net message w).stdout = w.stdout ++
          [outputLine
            (.obj [(js "jsonrpc", .str (js "2.0")), (js "id", (JsVal.obj props).field (js "id")),
              (js "result", .obj
                [(js "content",
                    if truthy ((JsVal.obj reply).field (js "content"))
                    then (JsVal.obj reply).field (js "content") else .arr []),
                  (js "isError",
                    if truthy ((JsVal.obj reply).field (js "isError"))
                    then (JsVal.obj reply).field (js "isError") else .bool false)])])]) ∧
    (∀ net2 : Transport,
      net2 (a.httpRequest ⟨"/tools/call", "POST",
          .obj [(js "name", .str (js "echo")),
            (js "arguments", .obj [(js "x", .num (.finite false 1 0))])]⟩)
        = .body "\x7b\"content\":[\x7b\"type\":\"text\",\"text\":\"ok\"\x7d]\x7d" →
      (a.handleCodexMessage net2
          "\x7b\"jsonrpc\":\"2.0\",\"id\":1,\"method\":\"tools/call\",\"params\":\x7b\"name\":\"echo\",\"arguments\":\x7b\"x\":1\x7d\x7d\x7d"
          w).stdout = w.stdout ++
        ["\x7b\"jsonrpc\":\"2.0\",\"id\":1,\"result\":\x7b\"content\":[\x7b\"type\":\"text\",\"text\":\"ok\"\x7d],\"isError\":false\x7d\x7d\n"]) := by
  refine ⟨⟨toolCall_requests a net message props w hparse hmethod hparams, ?_⟩, ?_, ?_⟩
  · simp [RubeMCPAdapter.httpRequest, truthy, jsonStringify, stringifyVal]
  · intro data reply hnet hreply
    rw [toolCall_reply a net message props w data reply hparse hmethod hparams hnet hreply]
    exact ⟨rfl, rfl⟩
  · intro net2 hnet2
    rw [toolCall_reply a net2
      "\x7b\"jsonrpc\":\"2.0\",\"id\":1,\"method\":\"tools/call\",\"params\":\x7b\"name\":\"echo\",\"arguments\":\x7b\"x\":1\x7d\x7d\x7d"
      [(js "jsonrpc", .str (js "2.0")), (js "id", .num (.finite false 1 0)),
        (js "method", .str (js "tools/call")),
        (js "params", .obj [(js "name", .str (js "echo")),
          (js "arguments", .obj [(js "x", .num (.finite false 1 0))])])]
      w "\x7b\"content\":[\x7b\"type\":\"text\",\"text\":\"ok\"\x7d]\x7d"
      [(js "content", .arr [.obj [(js "type", .str (js "text")), (js "text", .str (js "ok"))]])]
      (by rfl) (by rfl) (by rfl) hnet2 (by rfl)]
    rw [sendToCodex_stdout]
    have hline : outputLine (resultEnvelope
        ((JsVal.obj [(js "jsonrpc", .str (js "2.0")), (js "id", .num (.finite false 1 0)),
          (js "method", .str (js "tools/call")),
          (js "params", .obj [(js "name", .str (js "echo")),
            (js "arguments", .obj [(js "x", .num (.finite false 1 0))])])]).field (js "id"))
        (.obj [(js "content", jsOr ((JsVal.obj [(js "content",
            .arr [.obj [(js "type", .str (js "text")), (js "text", .str (js "ok"))]])]).field
              (js "content")) (.arr [])),
          (js "isError", jsOr ((JsVal.obj [(js "content",
            .arr [.obj [(js "type", .str (js "text")), (js "text", .str (js "ok"))]])]).field
              (js "isError")) (.bool false))]))
        = "\x7b\"jsonrpc\":\"2.0\",\"id\":1,\"result\":\x7b\"content\":[\x7b\"type\":\"text\",\"text\":\"ok\"\x7d],\"isError\":false\x7d\x7d\n" := by
      decide
    rw [hline]
    rfl


set_option maxRecDepth 100000 in
/-- C5, at the `echo` request of the specification. -/
theorem tool_call_translation_witness :
    ((⟨"https://api.rube.app", none⟩ : RubeMCPAdapter).handleCodexMessage
        (fun _ => Reply.body "\x7b\"content\":[\x7b\"type\":\"text\",\"text\":\"ok\"\x7d]\x7d")
        "\x7b\"jsonrpc\":\"2.0\",\"id\":1,\"method\":\"tools/call\",\"params\":\x7b\"name\":\"echo\",\"arguments\":\x7b\"x\":1\x7d\x7d\x7d"
        World.initial).stdout = World.initial.stdout ++
      ["\x7b\"jsonrpc\":\"2.0\",\"id\":1,\"result\":\x7b\"content\":[\x7b\"type\":\"text\",\"text\":\"ok\"\x7d],\"isError\":false\x7d\x7d\n"] :=
  (tool_call_translation ⟨"https://api.rube.app", none⟩
    (fun _ => Reply.body "\x7b\"content\":[\x7b\"type\":\"text\",\"text\":\"ok\"\x7d]\x7d")
    "\x7b\"jsonrpc\":\"2.0\",\"id\":1,\"method\":\"tools/call\",\"params\":\x7b\"name\":\"echo\",\"arguments\":\x7b\"x\":1\x7d\x7d\x7d"
    [(js "jsonrpc", .str (js "2.0")), (js "id", .num (.finite false 1 0)),
      (js "method", .str (js "tools/call")),
      (js "params", .obj [(js "name", .str (js "echo")),
        (js "arguments", .obj [(js "x", .num (.finite false 1 0))])])]
    World.initial (by rfl) (by rfl) (by rfl)).2.2
    (fun _ => Reply.body "\x7b\"content\":[\x7b\"type\":\"text\",\"text\":\"ok\"\x7d]\x7d") rfl

set_option maxRecDepth 100000 in
/-- C5 as stated fails: the reply `{"content":"","isError":0}` has both fields, with the
values `""` and `0`, yet the line written for the `echo` request carries `[]` and `false`. -/
theorem tool_call_present_falsy_fields_replaced :
    jsonParse "\x7b\"content\":\"\",\"isError\":0\x7d"
        = .ok (.obj [(js "content", .str []), (js "isError", .num (.finite false 0 0))]) ∧
      ((⟨"https://api.rube.app", none⟩ : RubeMCPAdapter).handleCodexMessage
          (fun _ => Reply.body "\x7b\"content\":\"\",\"isError\":0\x7d")
          "\x7b\"jsonrpc\":\"2.0\",\"id\":1,\"method\":\"tools/call\",\"params\":\x7b\"name\":\"echo\",\"arguments\":\x7b\"x\":1\x7d\x7d\x7d"
          World.initial).stdout =
        ["\x7b\"jsonrpc\":\"2.0\",\"id\":1,\"result\":\x7b\"content\":[],\"isError\":false\x7d\x7d\n"] ∧
      ((⟨"https://api.rube.app", none⟩ : RubeMCPAdapter).handleCodexMessage
          (fun _ => Reply.body "\x7b\"content\":\"\",\"isError\":0\x7d")
          "\x7b\"jsonrpc\":\"2.0\",\"id\":1,\"method\":\"tools/call\",\"params\":\x7b\"name\":\"echo\",\"arguments\":\x7b\"x\":1\x7d\x7d\x7d"
          World.initial).stdout ≠
        ["\x7b\"jsonrpc\":\"2.0\",\"id\":1,\"result\":\x7b\"content\":\"\",\"isError\":0\x7d\x7d\n"] :=
  ⟨by rfl, by decide, by decide⟩


theorem toolsList_reply (a : RubeMCPAdapter) (net : Transport) (message : String)
    (props : List (JsString × JsVal)) (w : World) (data : String) (v : JsVal)
    (hparse : jsonParse message = .ok (.obj props))
    (hmethod : (JsVal.obj props).field (js "method") = .str (js "tools/list"))
    (hnet : net (a.httpRequest ⟨"/tools/list", "GET", .null⟩) = .body data)
    (hv : jsonParse data = .ok v) :
    a.handleCodexMessage net message w =
      sendToCodex (resultEnvelope ((JsVal.obj props).field (js "id"))
        (.obj [(js "tools", jsOr v (.arr []))])) (w.withCall ⟨"/tools/list", "GET", .null⟩) := by
  simp only [RubeMCPAdapter.handleCodexMessage, hparse]
  rw [dispatch_toolsList a net props w hmethod, handleToolsList_obj,
    settle_of_body a net _ data _ hnet hv]
  rfl

/-- C7, as amended. When the backend call of a `tools/list` request succeeds with the parsed
value `v`, the one message sent has a `result` whose only field is `tools`; its value is `v`
itself when `v` is truthy and the empty array otherwise. So it is an array whenever `v` is an
array or is falsy (`null`, `false`, `0`, `""`), and it is the empty array when the backend
supplied nothing of substance (`v` falsy). No check that a truthy `v` is an array is made. -/
theorem tools_list_result (a : RubeMCPAdapter) (net : Transport) (message : String)
    (props : List (JsString × JsVal)) (w : World) (data : String) (v : JsVal)
    (hparse : jsonParse message = .ok (.obj props))
    (hmethod : (JsVal.obj props).field (js "method") = .str (js "tools/list"))
    (hnet : net (a.httpRequest ⟨"/tools/list", "GET", .null⟩) = .body data)
    (hv : jsonParse data = .ok v) :
    (a.handleCodexMessage net message w).sent = w.sent ++
        [.obj [(js "jsonrpc", .str (js "2.0")), (js "id", (JsVal.obj props).field (js "id")),
          (js "result", .obj [(js "tools", if truthy v then v else .arr [])])]] ∧
      ((v.isArray = true ∨ truthy v = false) →
        (if truthy v then v else JsVal.arr []).isArray = true) ∧
      (truthy v = false → (if truthy v then v else JsVal.arr []) = .arr []) ∧
      (truthy v = true → (if truthy v then v else JsVal.arr []) = v) := by
  rw [toolsList_reply a net message props w data v hparse hmethod hnet hv]
  refine ⟨rfl, ?_, ?_, ?_⟩
  · rintro (h | h)
    · cases v with
      | arr items => simp [truthy, JsVal.isArray]
      | _ => cases h
    · simp [h, JsVal.isArray]
  · intro h
    simp [h]
  · intro h
    simp [h]

set_option maxRecDepth 100000 in
/-- C7, at a `tools/list` request answered with an array of one tool. -/
theorem tools_list_result_witness :
    ((⟨"https://api.rube.app", none⟩ : RubeMCPAdapter).handleCodexMessage
        (fun _ => Reply.body "[\x7b\"name\":\"echo\"\x7d]")
        "\x7b\"jsonrpc\":\"2.0\",\"id\":1,\"method\":\"tools/list\"\x7d" World.initial).sent =
      World.initial.sent ++
        [.obj [(js "jsonrpc", .str (js "2.0")),
          (js "id", JsVal.field (.obj [(js "jsonrpc", .str (js "2.0")),
            (js "id", .num (.finite false 1 0)), (js "method", .str (js "tools/list"))]) (js "id")),
          (js "result", .obj [(js "tools",
            if truthy (.arr [.obj [(js "name", .str (js "echo"))]])
            then .arr [.obj [(js "name", .str (js "echo"))]] else .arr [])])]] :=
  (tools_list_result ⟨"https://api.rube.app", none⟩
    (fun _ => Reply.body "[\x7b\"name\":\"echo\"\x7d]")
    "\x7b\"jsonrpc\":\"2.0\",\"id\":1,\"method\":\"tools/list\"\x7d"
    [(js "jsonrpc", .str (js "2.0")), (js "id", .num (.finite false 1 0)),
      (js "method", .str (js "tools/list"))]
    World.initial "[\x7b\"name\":\"echo\"\x7d]" (.arr [.obj [(js "name", .str (js "echo"))]])
    (by rfl) (by rfl) rfl (by rfl)).1

set_option maxRecDepth 100000 in
/-- C7 as stated fails: a backend that answers `tools/list` with the object `{"tools":[]}`
gets that object passed on as the value of `tools`, which is then not an array. -/
theorem tools_list_object_reply_not_a_sequence :
    ((⟨"https://api.rube.app", none⟩ : RubeMCPAdapter).handleCodexMessage
        (fun _ => Reply.body "\x7b\"tools\":[]\x7d")
        "\x7b\"jsonrpc\":\"2.0\",\"id\":1,\"method\":\"tools/list\"\x7d" World.initial).sent =
      [.obj [(js "jsonrpc", .str (js "2.0")), (js "id", .num (.finite false 1 0)),
        (js "result", .obj [(js "tools", .obj [(js "tools", .arr [])])])]] ∧
      (JsVal.obj [(js "tools", .arr [])]).isArray = false ∧
      ((⟨"https://api.rube.app", none⟩ : RubeMCPAdapter).handleCodexMessage
          (fun _ => Reply.body "\x7b\"tools\":[]\x7d")
          "\x7b\"jsonrpc\":\"2.0\",\"id\":1,\"method\":\"tools/list\"\x7d" World.initial).stdout =
        ["\x7b\"jsonrpc\":\"2.0\",\"id\":1,\"result\":\x7b\"tools\":\x7b\"tools\":[]\x7d\x7d\x7d\n"] :=
  ⟨by rfl, rfl, by decide⟩

set_option maxRecDepth 100000 in
/-- C10 fails on the code: the text `null` is valid JSON, yet reading `request.method` of the
parsed `null` throws inside the `try` block and the `catch` block reports a parse error with
code -32700; so does the chunk `null` followed by a newline on standard input. The other
documents that are not objects, such as `5` and `[]`, reach the `default` branch of the
`switch` and are answered with -32601. -/
theorem null_document_reported_as_parse_error (a : RubeMCPAdapter) (net : Transport)
    (w : World) :
    isValidJson "null" = true ∧ jsonParse "null" = .ok .null ∧
      (a.handleCodexMessage net "null" w).sent
        = w.sent ++ [errorEnvelope .null (-32700) "Parse error"] ∧
      (a.handleCodexMessage net "null" w).stdout = w.stdout ++
        ["\x7b\"jsonrpc\":\"2.0\",\"id\":null,\"error\":\x7b\"code\":-32700,\"message\":\"Parse error\"\x7d\x7d\n"] ∧
      (a.onData net "null\n" w).sent
        = w.sent ++ [errorEnvelope .null (-32700) "Parse error"] ∧
      (a.handleCodexMessage net "5" w).sent
        = w.sent ++ [errorEnvelope .undefined (-32601) "Method not found"] ∧
      (a.handleCodexMessage net "[]" w).sent
        = w.sent ++ [errorEnvelope .undefined (-32601) "Method not found"] := by
  have hp : jsonParse "null" = .ok .null := by rfl
  have hrun : a.handleCodexMessage net "null" w = parseErrorCatch w := by
    simp only [RubeMCPAdapter.handleCodexMessage, hp]
    rfl
  have hp5 : jsonParse "5" = .ok (.num (.finite false 5 0)) := by rfl
  have hrun5 : a.handleCodexMessage net "5" w
      = sendError .undefined (-32601) "Method not found" w := by
    simp only [RubeMCPAdapter.handleCodexMessage, hp5]
    rfl
  have hpa : jsonParse "[]" = .ok (.arr []) := by rfl
  have hruna : a.handleCodexMessage net "[]" w
      = sendError .undefined (-32601) "Method not found" w := by
    simp only [RubeMCPAdapter.handleCodexMessage, hpa]
    rfl
  have htrim : jsTrim "null\n" = "null" := by decide
  refine ⟨by decide, hp, ?_, ?_, ?_, ?_, ?_⟩
  · rw [hrun]; rfl
  · rw [hrun, parseErrorCatch_stdout, parse_error_line]
  · unfold RubeMCPAdapter.onData
    rw [htrim, hrun]; rfl
  · rw [hrun5]; rfl
  · rw [hruna]; rfl

theorem hexDigitUpper_safe : ∀ n, n < 16 → isQuerySafe (hexDigitUpper n) = true := by decide

theorem percentOctet_safe (b : Nat) : ∀ c ∈ percentOctet b, isQuerySafe c = true := by
  intro c hc
  simp only [percentOctet, List.mem_cons, List.mem_singleton, List.not_mem_nil, or_false] at hc
  rcases hc with rfl | rfl | rfl
  · decide
  · exact hexDigitUpper_safe _ (Nat.mod_lt _ (by decide))
  · exact hexDigitUpper_safe _ (Nat.mod_lt _ (by decide))

theorem percentCodePoint_safe (cp : Nat) : ∀ c ∈ percentCodePoint cp, isQuerySafe c = true := by
  intro c hc
  simp only [percentCodePoint, List.mem_flatMap] at hc
  obtain ⟨b, _, hb⟩ := hc
  exact percentOctet_safe b c hb

theorem unreserved_safe : ∀ u, u < 128 → isUriUnreserved u = true →
    isQuerySafe (Char.ofNat u) = true := by decide

theorem unreserved_lt (u : Nat) (h : isUriUnreserved u = true) : u < 128 := by
  simp only [isUriUnreserved, Bool.or_eq_true, Bool.and_eq_true, decide_eq_true_eq,
    beq_iff_eq] at h
  omega

theorem unreserved_not_surrogate (u : Nat) (h : isUriUnreserved u = true) :
    isHighSurrogate u = false ∧ isLowSurrogate u = false := by
  have := unreserved_lt u h
  simp only [isHighSurrogate, isLowSurrogate, Bool.and_eq_false_imp, decide_eq_true_eq,
    decide_eq_false_iff_not]
  omega

theorem encodeFrom_of_wellFormed : ∀ (u : JsString) (pending : Option Nat),
    wellFormedFrom pending.isSome u = true →
    ∃ out, encodeFrom pending u = .ok out ∧ ∀ c ∈ out, isQuerySafe c = true := by
  intro u
  induction u with
  | nil =>
    intro pending hwf
    cases pending with
    | none => exact ⟨[], rfl, by simp⟩
    | some hi => simp [wellFormedFrom] at hwf
  | cons x rest ih =>
    intro pending hwf
    cases pending with
    | some hi =>
      simp only [Option.isSome_some, wellFormedFrom, Bool.and_eq_true] at hwf
      obtain ⟨hlo, hwf2⟩ := hwf
      obtain ⟨out, hout, hsafe⟩ := ih none hwf2
      refine ⟨percentCodePoint ((hi - 55296) * 1024 + (x - 56320) + 65536) ++ out, ?_, ?_⟩
      · simp only [encodeFrom, hlo, if_true, hout]
      · intro c hc
        rcases List.mem_append.mp hc with hc | hc
        · exact percentCodePoint_safe _ c hc
        · exact hsafe c hc
    | none =>
      simp only [Option.isSome_none, wellFormedFrom] at hwf
      by_cases hunres : isUriUnreserved x = true
      · obtain ⟨hh, hl⟩ := unreserved_not_surrogate x hunres
        simp only [hh, hl, Bool.false_eq_true, if_false, Bool.and_eq_true] at hwf
        obtain ⟨out, hout, hsafe⟩ := ih none hwf.2
        refine ⟨Char.ofNat x :: out, ?_, ?_⟩
        · simp only [encodeFrom, hunres, if_true, hout]
        · intro c hc
          rcases List.mem_cons.mp hc with rfl | hc
          · exact unreserved_safe x (unreserved_lt x hunres) hunres
          · exact hsafe c hc
      · by_cases hhigh : isHighSurrogate x = true
        · simp only [hhigh, if_true] at hwf
          obtain ⟨out, hout, hsafe⟩ := ih (some x) hwf
          exact ⟨out, by simp [encodeFrom, hunres, hhigh, hout], hsafe⟩
        · by_cases hlow : isLowSurrogate x = true
          · simp [hhigh, hlow] at hwf
          · simp only [hhigh, hlow, Bool.false_eq_true, if_false, Bool.and_eq_true] at hwf
            obtain ⟨out, hout, hsafe⟩ := ih none hwf.2
            refine ⟨percentCodePoint x ++ out, ?_, ?_⟩
            · simp only [encodeFrom, hunres, hhigh, hlow, Bool.false_eq_true, if_false, hout]
            · intro c hc
              rcases List.mem_append.mp hc with hc | hc
              · exact percentCodePoint_safe _ c hc
              · exact hsafe c hc

theorem encodeUnits_of_wellFormed (u : JsString) (h : isWellFormed u = true) :
    ∃ out, encodeUnits u = .ok out ∧ ∀ c ∈ out, isQuerySafe c = true :=
  encodeFrom_of_wellFormed u none h

theorem present_of_field_str (v : JsVal) (key s : JsString) (h : v.field key = .str s) :
    v.isPresent = true := by
  cases v <;> first | rfl | cases h

theorem resourceRead_requests (a : RubeMCPAdapter) (net : Transport) (message : String)
    (props : List (JsString × JsVal)) (w : World) (encoded : String)
    (hparse : jsonParse message = .ok (.obj props))
    (hmethod : (JsVal.obj props).field (js "method") = .str (js "resources/read"))
    (hparams : ((JsVal.obj props).field (js "params")).isPresent = true)
    (henc : encodeURIComponent (((JsVal.obj props).field (js "params")).field (js "uri"))
      = .ok encoded) :
    (a.handleCodexMessage net message w).requests = w.requests ++
      [⟨"/resources/read?uri=" ++ encoded, "GET", .null⟩] := by
  simp only [RubeMCPAdapter.handleCodexMessage, hparse]
  rw [dispatch_resourceRead a net props w hmethod,
    handleResourceRead_obj_encoded a net props w encoded hparams henc]
  cases hs : a.settle net ⟨"/resources/read?uri=" ++ encoded, "GET", .null⟩ with
  | pending => rfl
  | rejected e => rfl
  | resolved v => cases hv : v.isPresent <;> simp [hv, afterHandler] <;> rfl


theorem isQuerySafe_spelled (c : Char) (h : isQuerySafe c = true) :
    c.toNat < 128 ∧ c ≠ '/' ∧ c ≠ '?' ∧ c ≠ '&' ∧ c ≠ '#' ∧ c ≠ ' ' := by
  simpa [isQuerySafe, and_assoc] using h

/-- C6, as amended. For a `resources/read` request whose `params.uri` is a string `u`
without unpaired surrogates, `encodeURIComponent` succeeds and the one backend call is made
with the path `/resources/read?uri=` followed by the encoding, with verb `GET` and no
payload; the encoding is ASCII and holds none of `/`, `?`, `&`, `#` and space; and for
`u = "a b/c"` the path is `/resources/read?uri=a%20b%2Fc`. -/
theorem resource_read_path_encoded (a : RubeMCPAdapter) (net : Transport) (message : String)
    (props : List (JsString × JsVal)) (u : JsString) (w : World)
    (hparse : jsonParse message = .ok (.obj props))
    (hmethod : (JsVal.obj props).field (js "method") = .str (js "resources/read"))
    (huri : ((JsVal.obj props).field (js "params")).field (js "uri") = .str u)
    (hwf : isWellFormed u = true) :
    ∃ encoded : String,
      encodeURIComponent (.str u) = .ok encoded ∧
        (a.handleCodexMessage net message w).requests = w.requests ++
          [⟨"/resources/read?uri=" ++ encoded, "GET", .null⟩] ∧
        (a.httpRequest ⟨"/resources/read?uri=" ++ encoded, "GET", .null⟩).path
          = "/resources/read?uri=" ++ encoded ∧
        (a.httpRequest ⟨"/resources/read?uri=" ++ encoded, "GET", .null⟩).method = "GET" ∧
        (a.httpRequest ⟨"/resources/read?uri=" ++ encoded, "GET", .null⟩).payload = none ∧
        (∀ c ∈ encoded.data,
          c.toNat < 128 ∧ c ≠ '/' ∧ c ≠ '?' ∧ c ≠ '&' ∧ c ≠ '#' ∧ c ≠ ' ') ∧
        (u = js "a b/c" → "/resources/read?uri=" ++ encoded = "/resources/read?uri=a%20b%2Fc") := by
  obtain ⟨out, hout, hsafe⟩ := encodeUnits_of_wellFormed u hwf
  have henc : encodeURIComponent (.str u) = .ok (String.mk out) := by
    simp only [encodeURIComponent, toStringJs, hout]
  have hparams := present_of_field_str _ _ _ huri
  refine ⟨String.mk out, henc, ?_, rfl, rfl, rfl, ?_, ?_⟩
  · exact resourceRead_requests a net message props w (String.mk out) hparse hmethod hparams
      (by rw [huri]; exact henc)
  · intro c hc
    exact isQuerySafe_spelled c (hsafe c hc)
  · intro hu
    subst hu
    have h2 : encodeURIComponent (.str (js "a b/c")) = .ok "a%20b%2Fc" := by decide
    rw [h2] at henc
    injection henc with henc
    rw [← henc]
    decide

set_option maxRecDepth 100000 in
/-- C6, at a `resources/read` request for the uri `a b/c`. -/
theorem resource_read_path_encoded_witness :
    ∃ encoded : String,
      ((⟨"https://api.rube.app", none⟩ : RubeMCPAdapter).handleCodexMessage
          (fun _ => Reply.body "\x7b\"contents\":[]\x7d")
          "\x7b\"jsonrpc\":\"2.0\",\"id\":1,\"method\":\"resources/read\",\"params\":\x7b\"uri\":\"a b/c\"\x7d\x7d"
          World.initial).requests = World.initial.requests ++
            [⟨"/resources/read?uri=" ++ encoded, "GET", .null⟩] ∧
        "/resources/read?uri=" ++ encoded = "/resources/read?uri=a%20b%2Fc" :=
  (resource_read_path_encoded ⟨"https://api.rube.app", none⟩
    (fun _ => Reply.body "\x7b\"contents\":[]\x7d")
    "\x7b\"jsonrpc\":\"2.0\",\"id\":1,\"method\":\"resources/read\",\"params\":\x7b\"uri\":\"a b/c\"\x7d\x7d"
    [(js "jsonrpc", .str (js "2.0")), (js "id", .num (.finite false 1 0)),
      (js "method", .str (js "resources/read")), (js "params", .obj [(js "uri", .str (js "a b/c"))])]
    (js "a b/c") World.initial (by rfl) (by rfl) (by rfl) (by decide)).imp
    fun _ h => ⟨h.2.1, h.2.2.2.2.2.2 rfl⟩

set_option maxRecDepth 100000 in
/-- C6 as stated fails: the JSON text `"\ud800"` is a string, a lone leading surrogate, for
which `encodeURIComponent` throws; no path reaches the backend and the request is answered
with the error -32603. -/
theorem resource_read_lone_surrogate_no_request :
    jsonParse "\x7b\"jsonrpc\":\"2.0\",\"id\":1,\"method\":\"resources/read\",\"params\":\x7b\"uri\":\"\\ud800\"\x7d\x7d"
        = .ok (.obj [(js "jsonrpc", .str (js "2.0")), (js "id", .num (.finite false 1 0)),
          (js "method", .str (js "resources/read")), (js "params", .obj [(js "uri", .str [55296])])]) ∧
      encodeURIComponent (.str [55296]) = .error .uriError ∧
      ((⟨"https://api.rube.app", none⟩ : RubeMCPAdapter).handleCodexMessage
          (fun _ => Reply.body "\x7b\"contents\":[]\x7d")
          "\x7b\"jsonrpc\":\"2.0\",\"id\":1,\"method\":\"resources/read\",\"params\":\x7b\"uri\":\"\\ud800\"\x7d\x7d"
          World.initial).requests = [] ∧
      ((⟨"https://api.rube.app", none⟩ : RubeMCPAdapter).handleCodexMessage
          (fun _ => Reply.body "\x7b\"contents\":[]\x7d")
          "\x7b\"jsonrpc\":\"2.0\",\"id\":1,\"method\":\"resources/read\",\"params\":\x7b\"uri\":\"\\ud800\"\x7d\x7d"
          World.initial).stdout =
        ["\x7b\"jsonrpc\":\"2.0\",\"id\":1,\"error\":\x7b\"code\":-32603,\"message\":\"Resource read failed\"\x7d\x7d\n"] :=
  ⟨by rfl, by decide, by rfl, by decide⟩


theorem truthy_isPresent (x : JsVal) (h : truthy x = true) : x.isPresent = true := by
  cases x <;> first | rfl | cases h

theorem jsOr_isPresent (x d : JsVal) (hd : d.isPresent = true) :
    (jsOr x d).isPresent = true := by
  unfold jsOr
  cases h : truthy x with
  | true => simpa using truthy_isPresent x h
  | false => simpa using hd

theorem jsOr_of_absent (x d : JsVal) (h : x.isPresent = false) : jsOr x d = d := by
  cases x <;> first | rfl | cases h

theorem newSent_withCall (w : World) (call : RubeCall) : newSent w (w.withCall call) = [] := by
  simp [newSent, World.withCall]

theorem newSent_send (w : World) (env : JsVal) : newSent w (sendToCodex env w) = [env] := by
  simp [newSent, sendToCodex]

theorem newSent_send_withCall (w : World) (env : JsVal) (call : RubeCall) :
    newSent w (sendToCodex env (w.withCall call)) = [env] := by
  simp [newSent, sendToCodex, World.withCall]

theorem errorEnvelope_no_result (id : JsVal) (code : Int) (text : String) :
    (errorEnvelope id code text).hasField (js "result") = false := rfl

theorem handleCodexMessage_obj (a : RubeMCPAdapter) (net : Transport) (message : String)
    (props : List (JsString × JsVal)) (w : World)
    (hparse : jsonParse message = .ok (.obj props)) :
    a.handleCodexMessage net message w = a.dispatch net (.obj props) w := by
  simp only [RubeMCPAdapter.handleCodexMessage, hparse]

/-- C9. For a request naming one of the four known methods, every message sent that has a
`result` field stems from a resolved backend call with some parsed value `v`; the result
object has exactly the fields of that handler (`tools`; `content` and `isError`;
`resources`; `contents`), none of them `null` or `undefined`; each field holds what the
handler read from `v` when that is truthy and the default (`[]`, or `false` for `isError`)
otherwise, so a backend field that is absent is replaced by the default. -/
theorem result_fields_present (a : RubeMCPAdapter) (net : Transport) (message : String)
    (props : List (JsString × JsVal)) (w : World) (m : String)
    (hparse : jsonParse message = .ok (.obj props))
    (hm : m ∈ recognizedMethods)
    (hmethod : (JsVal.obj props).field (js "method") = .str (js m)) :
    ∀ env ∈ newSent w (a.handleCodexMessage net message w),
      env.hasField (js "result") = true →
      ∃ (v : JsVal) (fields : List (JsString × JsVal)),
        (∃ call ∈ newRequests w (a.handleCodexMessage net message w),
          a.settle net call = .resolved v) ∧
        env.field (js "result") = .obj fields ∧
        fields.map Prod.fst = resultFields m ∧
        ∀ kv ∈ fields,
          kv.2.isPresent = true ∧
          ((backendField m v kv.1).isPresent = false → kv.2 = fieldDefault kv.1) ∧
          kv.2 = (if truthy (backendField m v kv.1) then backendField m v kv.1
            else fieldDefault kv.1) := by
  rw [handleCodexMessage_obj a net message props w hparse]
  intro env henv hres
  rcases mem_recognized m hm with rfl | rfl | rfl | rfl
  · rw [dispatch_toolsList a net props w hmethod, handleToolsList_obj] at henv ⊢
    cases hs : a.settle net ⟨"/tools/list", "GET", .null⟩ with
    | pending => rw [hs] at henv; simp [afterHandler, newSent_withCall] at henv
    | rejected e =>
      rw [hs] at henv
      simp only [afterHandler, sendError, newSent_send_withCall, List.mem_singleton] at henv
      subst henv
      cases hres
    | resolved v =>
      rw [hs] at henv
      simp only [afterHandler, newSent_send_withCall, List.mem_singleton] at henv
      subst henv
      refine ⟨v, [(js "tools", jsOr v (.arr []))],
        ⟨_, by simp [afterHandler, newRequests_sendToCodex, newRequests_withCall], hs⟩,
        rfl, by rfl, ?_⟩
      intro kv hkv
      simp only [List.mem_singleton] at hkv
      subst hkv
      exact ⟨jsOr_isPresent _ _ rfl, fun h => jsOr_of_absent _ _ h, rfl⟩
  · cases hp : ((JsVal.obj props).field (js "params")).isPresent with
    | false =>
      rw [dispatch_toolCall a net props w hmethod,
        handleToolCall_obj_absent a net props w hp] at henv
      simp only [afterHandler, sendError, newSent_send, List.mem_singleton] at henv
      subst henv
      cases hres
    | true =>
      rw [dispatch_toolCall a net props w hmethod,
        handleToolCall_obj_present a net props w hp] at henv ⊢
      cases hs : a.settle net ⟨"/tools/call", "POST",
          .obj [(js "name", ((JsVal.obj props).field (js "params")).field (js "name")),
            (js "arguments", ((JsVal.obj props).field (js "params")).field (js "arguments"))]⟩ with
      | pending => rw [hs] at henv; simp [afterHandler, newSent_withCall] at henv
      | rejected e =>
        rw [hs] at henv
        simp only [afterHandler, sendError, newSent_send_withCall, List.mem_singleton] at henv
        subst henv
        cases hres
      | resolved v =>
        rw [hs] at henv
        cases hv : v.isPresent with
        | false =>
          simp only [hv, Bool.false_eq_true, if_false, afterHandler, sendError,
            newSent_send_withCall, List.mem_singleton] at henv
          subst henv
          cases hres
        | true =>
          simp only [hv, if_true, afterHandler, newSent_send_withCall,
            List.mem_singleton] at henv
          subst henv
          refine ⟨v, [(js "content", jsOr (v.field (js "content")) (.arr [])),
              (js "isError", jsOr (v.field (js "isError")) (.bool false))],
            ⟨_, by simp [hv, afterHandler, newRequests_sendToCodex, newRequests_withCall], hs⟩,
            rfl, by rfl, ?_⟩
          intro kv hkv
          simp only [List.mem_cons, List.mem_singleton, List.not_mem_nil, or_false] at hkv
          rcases hkv with rfl | rfl
          · exact ⟨jsOr_isPresent _ _ rfl, fun h => jsOr_of_absent _ _ h, rfl⟩
          · exact ⟨jsOr_isPresent _ _ rfl, fun h => jsOr_of_absent _ _ h, rfl⟩
  · rw [dispatch_resourcesList a net props w hmethod, handleResourcesList_obj] at henv ⊢
    cases hs : a.settle net ⟨"/resources/list", "GET", .null⟩ with
    | pending => rw [hs] at henv; simp [afterHandler, newSent_withCall] at henv
    | rejected e =>
      rw [hs] at henv
      simp only [afterHandler, sendError, newSent_send_withCall, List.mem_singleton] at henv
      subst henv
      cases hres
    | resolved v =>
      rw [hs] at henv
      simp only [afterHandler, newSent_send_withCall, List.mem_singleton] at henv
      subst henv
      refine ⟨v, [(js "resources", jsOr v (.arr []))],
        ⟨_, by simp [afterHandler, newRequests_sendToCodex, newRequests_withCall], hs⟩,
        rfl, by rfl, ?_⟩
      intro kv hkv
      simp only [List.mem_singleton] at hkv
      subst hkv
      exact ⟨jsOr_isPresent _ _ rfl, fun h => jsOr_of_absent _ _ h, rfl⟩
  · cases hp : ((JsVal.obj props).field (js "params")).isPresent with
    | false =>
      rw [dispatch_resourceRead a net props w hmethod,
        handleResourceRead_obj_absent a net props w hp] at henv
      simp only [afterHandler, sendError, newSent_send, List.mem_singleton] at henv
      subst henv
      cases hres
    | true =>
      cases henc : encodeURIComponent
          (((JsVal.obj props).field (js "params")).field (js "uri")) with
      | error e =>
        rw [dispatch_resourceRead a net props w hmethod,
          handleResourceRead_obj_unencodable a net props w e hp henc] at henv
        simp only [afterHandler, sendError, newSent_send, List.mem_singleton] at henv
        subst henv
        cases hres
      | ok encoded =>
        rw [dispatch_resourceRead a net props w hmethod,
          handleResourceRead_obj_encoded a net props w encoded hp henc] at henv ⊢
        cases hs : a.settle net ⟨"/resources/read?uri=" ++ encoded, "GET", .null⟩ with
        | pending => rw [hs] at henv; simp [afterHandler, newSent_withCall] at henv
        | rejected e =>
          rw [hs] at henv
          simp only [afterHandler, sendError, newSent_send_withCall, List.mem_singleton] at henv
          subst henv
          cases hres
        | resolved v =>
          rw [hs] at henv
          cases hv : v.isPresent with
          | false =>
            simp only [hv, Bool.false_eq_true, if_false, afterHandler, sendError,
              newSent_send_withCall, List.mem_singleton] at henv
            subst henv
            cases hres
          | true =>
            simp only [hv, if_true, afterHandler, newSent_send_withCall,
              List.mem_singleton] at henv
            subst henv
            refine ⟨v, [(js "contents", jsOr (v.field (js "contents")) (.arr []))],
              ⟨_, by simp [hv, afterHandler, newRequests_sendToCodex, newRequests_withCall], hs⟩,
              rfl, by rfl, ?_⟩
            intro kv hkv
            simp only [List.mem_singleton] at hkv
            subst hkv
            exact ⟨jsOr_isPresent _ _ rfl, fun h => jsOr_of_absent _ _ h, rfl⟩


/-! ### The parser on two documents in one text -/

theorem jsWhitespace_of_jsonWhitespace (c : Char) (h : isJsonWhitespace c = true) :
    isJsWhitespace c = true := by
  simp only [isJsonWhitespace, isJsWhitespace, Bool.or_eq_true, beq_iff_eq, Bool.and_eq_true,
    decide_eq_true_eq] at h ⊢
  omega

theorem step_failed (stack : List Frame) (c : Char) :
    step ⟨stack, .failed⟩ c = ⟨stack, .failed⟩ := rfl

theorem runParser_failed (stack : List Frame) (cs : List Char) :
    runParser ⟨stack, .failed⟩ cs = ⟨stack, .failed⟩ := by
  induction cs with
  | nil => rfl
  | cons c rest ih => simpa [runParser, step_failed] using ih

theorem runParser_append (st : PState) (xs ys : List Char) :
    runParser st (xs ++ ys) = runParser (runParser st xs) ys := by
  simp [runParser, List.foldl_append]

theorem runParser_cons (st : PState) (c : Char) (cs : List Char) :
    runParser st (c :: cs) = runParser (step st c) cs := rfl

theorem finish_failed (stack : List Frame) : finish ⟨stack, .failed⟩ = .error .syntaxError := by
  cases stack <;> rfl

theorem runParser_done_whitespace (v : JsVal) (cs : List Char)
    (h : ∀ c ∈ cs, isJsonWhitespace c = true) :
    runParser ⟨[], .done v⟩ cs = ⟨[], .done v⟩ := by
  induction cs with
  | nil => rfl
  | cons c rest ih =>
    have hc := h c (List.mem_cons_self _ _)
    rw [runParser_cons]
    have : step ⟨[], .done v⟩ c = ⟨[], .done v⟩ := by
      simp [step, stepDone, hc]
    rw [this]
    exact ih (fun x hx => h x (List.mem_cons_of_mem _ hx))

theorem runParser_done_garbage (v : JsVal) (cs : List Char)
    (h : ∃ c ∈ cs, isJsonWhitespace c = false) :
    runParser ⟨[], .done v⟩ cs = ⟨[], .failed⟩ := by
  induction cs with
  | nil =>
    obtain ⟨c, hc, _⟩ := h
    cases hc
  | cons c rest ih =>
    rw [runParser_cons]
    cases hc : isJsonWhitespace c with
    | true =>
      have hstep : step ⟨[], .done v⟩ c = ⟨[], .done v⟩ := by
        simp [step, stepDone, hc]
      rw [hstep]
      apply ih
      obtain ⟨x, hx, hxw⟩ := h
      rcases List.mem_cons.mp hx with rfl | hx
      · rw [hc] at hxw; cases hxw
      · exact ⟨x, hx, hxw⟩
    | false =>
      have hstep : step ⟨[], .done v⟩ c = ⟨[], .failed⟩ := by
        simp [step, stepDone, hc]
      rw [hstep]
      exact runParser_failed [] rest

theorem feed_newline (n : NumAcc) : n.feed '\n' = none := by
  have hd : digitValue '\n' = none := by decide
  unfold NumAcc.feed
  rw [hd]
  cases n.phase <;> simp

theorem step_newline_of_finish (st : PState) (v : JsVal) (h : finish st = .ok v) :
    step st '\n' = ⟨[], .done v⟩ := by
  obtain ⟨stack, mode⟩ := st
  cases mode with
  | done v2 =>
    have : v2 = v := by
      simp only [finish] at h
      injection h
    subst this
    rfl
  | number n =>
    cases stack with
    | cons f rest => simp [finish] at h
    | nil =>
      simp only [finish] at h
      cases hf : n.phase.isFinal with
      | false => simp [hf] at h
      | true =>
        simp only [hf, if_true] at h
        injection h with h
        subst h
        simp [step, feed_newline, hf, complete, stepDone, isJsonWhitespace]
  | _ => simp [finish] at h

theorem parseChars_two_documents (l1 l2 : List Char) (v : JsVal)
    (h1 : parseChars l1 = .ok v) (h2 : ∃ c ∈ l2, isJsonWhitespace c = false) :
    parseChars (l1 ++ '\n' :: l2) = .error .syntaxError := by
  unfold parseChars at h1 ⊢
  rw [runParser_append, runParser_cons, step_newline_of_finish _ v h1,
    runParser_done_garbage v l2 h2]
  rfl


theorem digitValue_none_of_jsWhitespace (c : Char) (h : isJsWhitespace c = true) :
    digitValue c = none := by
  simp only [isJsWhitespace, Bool.or_eq_true, beq_iff_eq, Bool.and_eq_true,
    decide_eq_true_eq] at h
  simp only [digitValue, ite_eq_right_iff, reduceCtorEq, imp_false, not_and, not_le]
  omega

theorem stepValue_of_jsWhitespace (stack : List Frame) (c : Char)
    (h : isJsWhitespace c = true) : stepValue stack c = ⟨stack, .failed⟩ := by
  have h1 : c ≠ '{' := fun e => by rw [e] at h; revert h; decide
  have h2 : c ≠ '[' := fun e => by rw [e] at h; revert h; decide
  have h3 : c ≠ '"' := fun e => by rw [e] at h; revert h; decide
  have h4 : c ≠ 't' := fun e => by rw [e] at h; revert h; decide
  have h5 : c ≠ 'f' := fun e => by rw [e] at h; revert h; decide
  have h6 : c ≠ 'n' := fun e => by rw [e] at h; revert h; decide
  have h7 : c ≠ '-' := fun e => by rw [e] at h; revert h; decide
  simp only [stepValue, h1, h2, h3, h4, h5, h6, h7, if_false,
    digitValue_none_of_jsWhitespace c h]

theorem first_character_of_valid (cs : List Char) (v : JsVal)
    (h : finish (runParser ⟨[], .value⟩ cs) = .ok v) :
    ∃ pre c post, cs = pre ++ c :: post ∧ (∀ x ∈ pre, isJsonWhitespace x = true) ∧
      isJsWhitespace c = false ∧ finish (runParser ⟨[], .value⟩ (c :: post)) = .ok v := by
  induction cs with
  | nil => cases h
  | cons c rest ih =>
    cases hc : isJsonWhitespace c with
    | true =>
      have hstep : step ⟨[], .value⟩ c = ⟨[], .value⟩ := by simp [step, hc]
      rw [runParser_cons, hstep] at h
      obtain ⟨pre, d, post, hrest, hpre, hd, hfin⟩ := ih h
      refine ⟨c :: pre, d, post, by rw [hrest]; rfl, ?_, hd, hfin⟩
      intro x hx
      rcases List.mem_cons.mp hx with rfl | hx
      · exact hc
      · exact hpre x hx
    | false =>
      cases hw : isJsWhitespace c with
      | false => exact ⟨[], c, rest, rfl, by simp, hw, h⟩
      | true =>
        have hstep : step ⟨[], .value⟩ c = ⟨[], .failed⟩ := by
          simp [step, hc, stepValue_of_jsWhitespace [] c hw]
        rw [runParser_cons, hstep, runParser_failed, finish_failed] at h
        cases h

theorem last_not_satisfying {α : Type} (p : α → Bool) (l : List α)
    (h : ∃ c ∈ l, p c = false) :
    ∃ front d back, l = front ++ d :: back ∧ p d = false ∧ ∀ x ∈ back, p x = true := by
  induction l with
  | nil =>
    obtain ⟨c, hc, _⟩ := h
    cases hc
  | cons a t ih =>
    by_cases ht : ∃ c ∈ t, p c = false
    · obtain ⟨front, d, back, hl, hd, hback⟩ := ih ht
      exact ⟨a :: front, d, back, by rw [hl]; rfl, hd, hback⟩
    · have hall : ∀ x ∈ t, p x = true := by
        intro x hx
        cases hp : p x with
        | true => rfl
        | false => exact absurd ⟨x, hx, hp⟩ ht
      obtain ⟨c, hc, hpc⟩ := h
      rcases List.mem_cons.mp hc with rfl | hc
      · exact ⟨[], c, t, rfl, hpc, hall⟩
      · rw [hall c hc] at hpc
        cases hpc

theorem dropWhile_reverse_tail {α : Type} (p : α → Bool) (front back : List α) (d : α)
    (hd : p d = false) (hback : ∀ x ∈ back, p x = true) :
    ((front ++ d :: back).reverse.dropWhile p).reverse = front ++ [d] := by
  have h1 : (front ++ d :: back).reverse = back.reverse ++ d :: front.reverse := by simp
  rw [h1, List.dropWhile_append_of_pos (fun a ha => hback a (List.mem_reverse.mp ha)),
    List.dropWhile_cons_of_neg (by simp [hd])]
  simp

theorem trimChars_two_documents (pre post l2front l2back : List Char) (c d : Char)
    (hpre : ∀ x ∈ pre, isJsWhitespace x = true) (hc : isJsWhitespace c = false)
    (hd : isJsWhitespace d = false) (hback : ∀ x ∈ l2back, isJsWhitespace x = true) :
    trimChars ((pre ++ c :: post) ++ '\n' :: (l2front ++ d :: l2back))
      = (c :: post) ++ '\n' :: (l2front ++ [d]) := by
  unfold trimChars
  have h1 : (pre ++ c :: post) ++ '\n' :: (l2front ++ d :: l2back)
      = pre ++ (c :: (post ++ '\n' :: (l2front ++ d :: l2back))) := by simp
  rw [h1, List.dropWhile_append_of_pos hpre, List.dropWhile_cons_of_neg (by simp [hc])]
  have h2 : c :: (post ++ '\n' :: (l2front ++ d :: l2back))
      = (c :: (post ++ '\n' :: l2front)) ++ d :: l2back := by simp
  rw [h2, dropWhile_reverse_tail isJsWhitespace _ _ d hd hback]
  simp

theorem parse_trimmed_two_documents (l1 l2 : List Char) (v1 v2 : JsVal)
    (h1 : parseChars l1 = .ok v1) (h2 : parseChars l2 = .ok v2) :
    parseChars (trimChars (l1 ++ '\n' :: l2)) = .error .syntaxError := by
  obtain ⟨pre, c, post, hl1, hpre, hc, hfin⟩ := first_character_of_valid l1 v1 h1
  obtain ⟨pre2, c2, post2, hl2, _, hc2, _⟩ := first_character_of_valid l2 v2 h2
  obtain ⟨front, d, back, hl2b, hd, hback⟩ :=
    last_not_satisfying isJsWhitespace l2 ⟨c2, by rw [hl2]; simp, hc2⟩
  rw [hl1, hl2b, trimChars_two_documents pre post front back c d
    (fun x hx => jsWhitespace_of_jsonWhitespace x (hpre x hx)) hc hd hback]
  refine parseChars_two_documents (c :: post) (front ++ [d]) v1 hfin ⟨d, by simp, ?_⟩
  cases hj : isJsonWhitespace d with
  | false => rfl
  | true =>
    rw [jsWhitespace_of_jsonWhitespace d hj] at hd
    cases hd


theorem handleCodexMessage_invalid (a : RubeMCPAdapter) (net : Transport) (message : String)
    (w : World) (h : isValidJson message = false) :
    a.handleCodexMessage net message w = parseErrorCatch w := by
  unfold isValidJson at h
  unfold RubeMCPAdapter.handleCodexMessage
  cases hp : jsonParse message with
  | ok v => rw [hp] at h; cases h
  | error e => rfl

theorem isValidJson_trimmed_two_documents (s1 s2 : String)
    (h1 : isValidJson s1 = true) (h2 : isValidJson s2 = true) :
    isValidJson (jsTrim (s1 ++ "\n" ++ s2)) = false := by
  unfold isValidJson jsonParse at h1 h2
  cases hp1 : parseChars s1.data with
  | error e => rw [hp1] at h1; cases h1
  | ok v1 =>
    cases hp2 : parseChars s2.data with
    | error e => rw [hp2] at h2; cases h2
    | ok v2 =>
      have hdata : (s1 ++ "\n" ++ s2).data = s1.data ++ '\n' :: s2.data := by
        simp [String.data_append]
      unfold isValidJson jsonParse jsTrim
      rw [hdata, parse_trimmed_two_documents s1.data s2.data v1 v2 hp1 hp2]

/-- C8, as amended. A chunk is not split at line breaks: the listener trims it and hands it
to `handleCodexMessage` as one message. For every chunk made of two valid JSON texts (two
request objects in particular) separated by a newline, the trimmed chunk is not valid JSON,
so neither request is handled: no backend request is made and exactly one message is sent,
the parse error with code -32700 and id `null`. -/
theorem chunk_of_two_documents_single_parse_error (a : RubeMCPAdapter) (net : Transport)
    (s1 s2 : String) (w : World)
    (h1 : isValidJson s1 = true) (h2 : isValidJson s2 = true) :
    a.onData net (s1 ++ "\n" ++ s2) w
        = a.handleCodexMessage net (jsTrim (s1 ++ "\n" ++ s2)) w ∧
      isValidJson (jsTrim (s1 ++ "\n" ++ s2)) = false ∧
      (a.onData net (s1 ++ "\n" ++ s2) w).sent
        = w.sent ++ [errorEnvelope .null (-32700) "Parse error"] ∧
      (a.onData net (s1 ++ "\n" ++ s2) w).stdout = w.stdout ++
        ["\x7b\"jsonrpc\":\"2.0\",\"id\":null,\"error\":\x7b\"code\":-32700,\"message\":\"Parse error\"\x7d\x7d\n"] ∧
      (a.onData net (s1 ++ "\n" ++ s2) w).requests = w.requests := by
  have hinv := isValidJson_trimmed_two_documents s1 s2 h1 h2
  have hrun : a.onData net (s1 ++ "\n" ++ s2) w = parseErrorCatch w := by
    unfold RubeMCPAdapter.onData
    exact handleCodexMessage_invalid a net _ w hinv
  refine ⟨rfl, hinv, ?_, ?_, ?_⟩
  · rw [hrun]; rfl
  · rw [hrun, parseErrorCatch_stdout, parse_error_line]
  · rw [hrun]; rfl

set_option maxRecDepth 100000 in
/-- C8, at a chunk of two `tools/list` requests with ids 1 and 2. -/
theorem chunk_of_two_documents_single_parse_error_witness :
    ((⟨"https://api.rube.app", none⟩ : RubeMCPAdapter).onData (fun _ => Reply.body "[]")
        ("\x7b\"jsonrpc\":\"2.0\",\"id\":1,\"method\":\"tools/list\"\x7d" ++ "\n" ++
          "\x7b\"jsonrpc\":\"2.0\",\"id\":2,\"method\":\"tools/list\"\x7d")
        World.initial).sent
      = World.initial.sent ++ [errorEnvelope .null (-32700) "Parse error"] :=
  (chunk_of_two_documents_single_parse_error ⟨"https://api.rube.app", none⟩
    (fun _ => Reply.body "[]")
    "\x7b\"jsonrpc\":\"2.0\",\"id\":1,\"method\":\"tools/list\"\x7d"
    "\x7b\"jsonrpc\":\"2.0\",\"id\":2,\"method\":\"tools/list\"\x7d"
    World.initial (by decide) (by decide)).2.2.1

set_option maxRecDepth 100000 in
/-- C8 as stated fails: a chunk holding two `tools/list` requests, ids 1 and 2, one per
line, each of which alone is answered with its own id, produces a single line, the parse
error with id `null`, and no backend request. -/
theorem two_requests_in_one_chunk_not_split :
    ((⟨"https://api.rube.app", none⟩ : RubeMCPAdapter).onData (fun _ => Reply.body "[]")
        "\x7b\"jsonrpc\":\"2.0\",\"id\":1,\"method\":\"tools/list\"\x7d"
        World.initial).stdout =
      ["\x7b\"jsonrpc\":\"2.0\",\"id\":1,\"result\":\x7b\"tools\":[]\x7d\x7d\n"] ∧
    ((⟨"https://api.rube.app", none⟩ : RubeMCPAdapter).onData (fun _ => Reply.body "[]")
        "\x7b\"jsonrpc\":\"2.0\",\"id\":2,\"method\":\"tools/list\"\x7d"
        World.initial).stdout =
      ["\x7b\"jsonrpc\":\"2.0\",\"id\":2,\"result\":\x7b\"tools\":[]\x7d\x7d\n"] ∧
    ((⟨"https://api.rube.app", none⟩ : RubeMCPAdapter).onData (fun _ => Reply.body "[]")
        "\x7b\"jsonrpc\":\"2.0\",\"id\":1,\"method\":\"tools/list\"\x7d\n\x7b\"jsonrpc\":\"2.0\",\"id\":2,\"method\":\"tools/list\"\x7d"
        World.initial).stdout =
      ["\x7b\"jsonrpc\":\"2.0\",\"id\":null,\"error\":\x7b\"code\":-32700,\"message\":\"Parse error\"\x7d\x7d\n"] ∧
    ((⟨"https://api.rube.app", none⟩ : RubeMCPAdapter).onData (fun _ => Reply.body "[]")
        "\x7b\"jsonrpc\":\"2.0\",\"id\":1,\"method\":\"tools/list\"\x7d\n\x7b\"jsonrpc\":\"2.0\",\"id\":2,\"method\":\"tools/list\"\x7d"
        World.initial).requests = [] :=
  ⟨by decide, by decide, by decide, by rfl⟩

set_option maxRecDepth 100000 in
/-- C9, at a `tools/call` request answered with the empty object. -/
theorem result_fields_present_witness :
    ∃ (v : JsVal) (fields : List (JsString × JsVal)),
      JsVal.field (resultEnvelope (.num (.finite false 1 0))
          (.obj [(js "content", .arr []), (js "isError", .bool false)])) (js "result")
        = .obj fields ∧
      fields.map Prod.fst = resultFields "tools/call" ∧
      ∀ kv ∈ fields, kv.2.isPresent = true ∧
        ((backendField "tools/call" v kv.1).isPresent = false → kv.2 = fieldDefault kv.1) :=
  (result_fields_present ⟨"https://api.rube.app", none⟩ (fun _ => Reply.body "\x7b\x7d")
    "\x7b\"jsonrpc\":\"2.0\",\"id\":1,\"method\":\"tools/call\",\"params\":\x7b\"name\":\"echo\"\x7d\x7d"
    [(js "jsonrpc", .str (js "2.0")), (js "id", .num (.finite false 1 0)),
      (js "method", .str (js "tools/call")), (js "params", .obj [(js "name", .str (js "echo"))])]
    World.initial "tools/call" (by rfl) (by decide) (by rfl)
    (resultEnvelope (.num (.finite false 1 0))
      (.obj [(js "content", .arr []), (js "isError", .bool false)]))
    ((show newSent World.initial
        ((⟨"https://api.rube.app", none⟩ : RubeMCPAdapter).handleCodexMessage
          (fun _ => Reply.body "\x7b\x7d")
          "\x7b\"jsonrpc\":\"2.0\",\"id\":1,\"method\":\"tools/call\",\"params\":\x7b\"name\":\"echo\"\x7d\x7d"
          World.initial)
        = [resultEnvelope (.num (.finite false 1 0))
          (.obj [(js "content", .arr []), (js "isError", .bool false)])] from by rfl) ▸
      List.mem_singleton_self _)
    (by rfl)).imp fun _ h => h.imp fun _ h2 =>
      ⟨h2.2.1, h2.2.2.1, fun kv hkv => ⟨(h2.2.2.2 kv hkv).1, (h2.2.2.2 kv hkv).2.1⟩⟩


theorem dispatch_not_object (a : RubeMCPAdapter) (net : Transport) (v : JsVal) (w : World)
    (hv : v.isPresent = true) (hobj : v.isObject = false) :
    a.dispatch net v w = sendError .undefined (-32601) "Method not found" w := by
  cases v with
  | obj props => cases hobj
  | undefined => cases hv
  | null => cases hv
  | bool b => rfl
  | num n => rfl
  | str t => rfl
  | arr items => rfl

/-- What the code does in place of C10: a valid JSON message whose value is not `null` never
gets the code -32700, whatever the backend does. -/
theorem parse_error_code_only_for_null (a : RubeMCPAdapter) (net : Transport)
    (message : String) (v : JsVal) (w : World)
    (hparse : jsonParse message = .ok v) (hv : v.isPresent = true) :
    ∀ env ∈ newSent w (a.handleCodexMessage net message w),
      (env.field (js "error")).field (js "code") ≠ .num (.finite true 32700 0) := by
  have hrun : a.handleCodexMessage net message w = a.dispatch net v w := by
    simp only [RubeMCPAdapter.handleCodexMessage, hparse]
  rw [hrun]
  intro env henv
  cases hobj : v.isObject with
  | false =>
    rw [dispatch_not_object a net v w hv hobj] at henv
    simp only [sendError, newSent_send, List.mem_singleton] at henv
    subst henv
    intro h
    injection h with h
    injection h with h1 h2 h3
    revert h2
    decide
  | true =>
    cases v with
    | obj props =>
      rcases dispatch_obj_cases a net props w with h | ⟨r, hr, h⟩
      · rw [h] at henv
        simp only [sendError, newSent_send, List.mem_singleton] at henv
        subst henv
        intro h
        injection h with h
        injection h with h1 h2 h3
        revert h2
        decide
      · rw [h] at henv
        obtain ⟨c, w2⟩ := r
        rcases hr with ⟨hc, call, hw, _⟩ | ⟨hc, env2, henv2, hw⟩
        · simp only at hc hw
          subst hc hw
          simp [afterHandler, newSent_withCall] at henv
        · simp only at hc hw
          subst hc
          have hmem : env = env2 := by
            rcases hw with rfl | ⟨call, rfl⟩
            · simpa [afterHandler, newSent_send] using henv
            · simpa [afterHandler, newSent_send_withCall] using henv
          subst hmem
          rcases henv2 with ⟨text, rfl⟩ | ⟨fields, rfl⟩
          · intro h
            injection h with h
            injection h with h1 h2 h3
            revert h2
            decide
          · intro h
            cases h
    | _ => cases hobj

end RubeMCP
